import Mathlib

/-!
Muneem: route compilation and the per-request route callback.

A shallow embedding of `src/routesManager.js`.

* `extractHandlersFromRoute` validates one route mapping against the handlers
  container and returns the five handler slots of the route.
* `addRoute` applies the environment filter and the defaults, compiles the
  mapping and registers the route callback with the router.
* `routeCallback` is the synchronous part of the callback that the router runs
  for a matched request; `atEnd` is the main/response stage.
* `dataListener` (with `readRequestBody`), `endListener` and `errorListener` are
  the listeners that the callback attaches to the native request.
* `exceptionHandler.handle` is the default error handler, `Runner` the handler
  runner of `HandlerRunner.js`, and `Instance` the part of a `Muneem` instance
  (`muneem.js`) that the setup operations read and write.

JavaScript values are embedded as follows.  A thrown value is a `JSError`.  A
value that may be `undefined` is an `Option`.  The request/response pair
(`asked`, `ans`) and everything else a handler can mutate is one `Exchange`
value that is threaded through the handler calls; a handler call yields a
`Result`, which keeps the mutated exchange also when the handler throws.
What the callback does is recorded as a list of `Event`s.
-/

namespace Muneem

/-! ## Values -/

/-- A thrown JavaScript value.  `TypeError p` is the error of reading property
`p` of `undefined` (or of passing `undefined` for the argument `p`),
`ReferenceError x` the error of evaluating the unbound identifier `x`; both
carry the name instead of the engine's message text.
`Thrown v` is any value thrown by user code, `Error m` a plain `Error` with the
message `m`. -/
inductive JSError where
  | ApplicationSetupError (message : String)
  | TypeError (property : String)
  | ReferenceError (identifier : String)
  | Thrown (value : String)
  | Error (message : String)
  deriving DecidableEq, Repr

/-- The cases of `ans.data` that `atEnd` tells apart. -/
inductive Data where
  /-- The value `undefined`. -/
  | undefined
  /-- A string. -/
  | string (s : String)
  /-- A `Buffer`. -/
  | buffer (bytes : List Nat)
  /-- A truthy value whose `pipe` property is a function. -/
  | stream (id : Nat)
  /-- Any other value; `json` is what `JSON.stringify` returns for it
  (`none` when it returns `undefined`). -/
  | other (json : Option String)
  /-- Any other value on which `JSON.stringify` throws. -/
  | unserializable (err : String)
  deriving DecidableEq, Repr

/-- The cases of `asked.body`. -/
inductive Body where
  | undefined
  | chunks (cs : List (List Nat))
  | buffer (bytes : List Nat)
  deriving DecidableEq, Repr

/-- The application options (`appContext`): `defaultOptions` of `muneem.js`. -/
structure AppContext where
  alwaysReadRequestPayload : Bool
  maxLength : Int
  deriving DecidableEq, Repr

/-- One route mapping.  The fields are those of the mapping record: `when`,
`uri`, `in`, `after`, `to`, `then`, `maxLength` (`in`, `to` and `then` carry an
underscore because the bare words are reserved).  An absent field is `none`. -/
structure Route where
  when : Option String
  uri : String
  in_ : Option (List String)
  after : Option (List String)
  to_ : Option String
  then_ : Option (List String)
  maxLength : Option Int
  deriving DecidableEq, Repr

/-- The object `context = {app, route}` that `addRoute` builds. -/
structure RouteContext where
  app : AppContext
  route : Route
  deriving DecidableEq, Repr

/-- Modelled from the spec: the request and response facades (`HttpAsked`,
`HttpAnswer`), which are not part of the sources.  `answered` is what
`ans.answered()` reports, `data`, `error` and `context` are the settable fields
of the answer, `body` is `asked.body`, and `user` is every other piece of state
that handlers read or write. -/
structure Exchange (υ : Type) where
  answered : Bool
  data : Data
  error : Option JSError
  context : Option RouteContext
  body : Body
  user : υ

/-- The outcome of calling user code: it returns or it throws; the exchange is
the one it leaves behind in both cases. -/
inductive Result (υ : Type) where
  | ok (ex : Exchange υ)
  | throw (e : JSError) (ex : Exchange υ)

/-- The argument lists with which the sources call a handler function:
`(asked, ans, context)`, `(asked, ans)` and `(chunk)`. -/
inductive Args where
  | withContext
  | noContext
  | chunk (bytes : List Nat)
  deriving DecidableEq, Repr

/-- A registered handler: its `type` tag (absent for an untagged handler), its
`handle` function, and the optional `before` and `after` hooks of a streaming
handler. -/
structure Handler (υ : Type) where
  name : String
  type : Option String
  handle : Args → Exchange υ → Result υ
  before : Option (Exchange υ → Result υ)
  after : Option (Exchange υ → Result υ)
  inParallel : Bool

/-- The handlers container as `routesManager.js` uses it: `this.handlers.get`,
which yields the handler or `undefined`. -/
abbrev Registry (υ : Type) := String → Option (Handler υ)

/-- The object `routeHandlers` built by `extractHandlersFromRoute`. -/
structure RouteHandlers (υ : Type) where
  reqHandlers : List (Handler υ)
  reqDataStreamHandler : Option (Handler υ)
  reqDataHandlers : List (Handler υ)
  resHandlers : List (Handler υ)
  mainHandler : Option (Handler υ)

/-! ## Route compilation -/

/-- The constant `dontHaveBody = ["GET", "HEAD"]`. -/
def dontHaveBody : List String := ["GET", "HEAD"]

/-- The constant `mayHaveBody`. -/
def mayHaveBody : List String := ["POST", "PUT", "DELETE", "OPTION"]

/-- String-keyed properties that an array inherits from `Array.prototype` and
`Object.prototype`; each of them holds a function or an object. -/
def arrayInheritedKeys : List String :=
  ["constructor", "at", "concat", "copyWithin", "fill", "find", "findIndex",
   "findLast", "findLastIndex", "lastIndexOf", "pop", "push", "reverse", "shift",
   "unshift", "slice", "sort", "splice", "includes", "indexOf", "join", "keys",
   "entries", "values", "forEach", "filter", "flat", "flatMap", "map", "every",
   "some", "reduce", "reduceRight", "toLocaleString", "toString", "toReversed",
   "toSorted", "toSpliced", "with", "hasOwnProperty", "isPrototypeOf",
   "propertyIsEnumerable", "valueOf", "__defineGetter__", "__defineSetter__",
   "__lookupGetter__", "__lookupSetter__", "__proto__"]

/-- The property key that `when` is converted to in `dontHaveBody[route.when]`. -/
def propertyKey (when : Option String) : String :=
  match when with
  | some k => k
  | none => "undefined"

/-- Truthiness of the member access `dontHaveBody[route.when]`: the array is
indexed by the method string as a property key.  Its own keys are the indices
`"0"` and `"1"` (the two non-empty strings) and `"length"` (the number 2); all
other keys are looked up on the prototype chain. -/
def dontHaveBodyAt (when : Option String) : Bool :=
  let key := propertyKey when
  ((List.range dontHaveBody.length).map toString).contains key
    || key == "length" || arrayInheritedKeys.contains key

/-- The empty `routeHandlers` object. -/
def RouteHandlers.empty {υ : Type} : RouteHandlers υ :=
  { reqHandlers := [], reqDataStreamHandler := none, reqDataHandlers := [],
    resHandlers := [], mainHandler := none }

/-- One iteration of the loop over `route.after`. -/
def afterStep {υ : Type} (app : AppContext) (handlers : Registry υ) (when : Option String)
    (routeHandlers : RouteHandlers υ) (name : String) : Except JSError (RouteHandlers υ) :=
  match handlers name with
  | none => .error (.ApplicationSetupError ("Unregistered handler " ++ name))
  | some handler =>
    if dontHaveBodyAt when
        && (handler.type == some "requestDataStream" || handler.type == some "requestData")
        && !app.alwaysReadRequestPayload then
      .error (.ApplicationSetupError
        "Set alwaysReadRequestPayload if you want to read request body/payload for GET and HEAD methods (which is not idle)")
    else if handler.type = some "requestDataStream" then
      if routeHandlers.reqDataHandlers.length > 0 then
        .error (.ApplicationSetupError "MappingError: Request Stream handler should be called before.")
      else if routeHandlers.reqDataStreamHandler.isSome then
        .error (.ApplicationSetupError
          "MappingError: There is only one request stream handler per mapping allowed.")
      else
        .ok { routeHandlers with reqDataStreamHandler := some handler }
    else if handler.type = some "requestData" then
      .ok { routeHandlers with reqDataHandlers := routeHandlers.reqDataHandlers ++ [handler] }
    else
      .ok { routeHandlers with reqHandlers := routeHandlers.reqHandlers ++ [handler] }

/-- The loop over `route.after`, from the current name to the end. -/
def afterLoop {υ : Type} (app : AppContext) (handlers : Registry υ) (when : Option String) :
    List String → RouteHandlers υ → Except JSError (RouteHandlers υ)
  | [], routeHandlers => .ok routeHandlers
  | name :: rest, routeHandlers =>
    match afterStep app handlers when routeHandlers name with
    | .error e => .error e
    | .ok routeHandlers1 => afterLoop app handlers when rest routeHandlers1

/-- One iteration of the loop over `route.then`. -/
def thenStep {υ : Type} (handlers : Registry υ) (routeHandlers : RouteHandlers υ)
    (name : String) : Except JSError (RouteHandlers υ) :=
  match handlers name with
  | none => .error (.ApplicationSetupError ("Unregistered handler " ++ name))
  | some handler =>
    if handler.type ≠ some "response" then
      .error (.ApplicationSetupError
        ("Ah! wrong place for " ++ name ++ ". Only response handlers are allowed here."))
    else
      .ok { routeHandlers with resHandlers := routeHandlers.resHandlers ++ [handler] }

/-- The loop over `route.then`, from the current name to the end. -/
def thenLoop {υ : Type} (handlers : Registry υ) :
    List String → RouteHandlers υ → Except JSError (RouteHandlers υ)
  | [], routeHandlers => .ok routeHandlers
  | name :: rest, routeHandlers =>
    match thenStep handlers routeHandlers name with
    | .error e => .error e
    | .ok routeHandlers1 => thenLoop handlers rest routeHandlers1

/-- The block `if(route.to){...}`: an absent and an empty `to` are both falsy.
The looked-up handler is used without a check, so reading `type` of a missing
handler is a `TypeError`. -/
def toStep {υ : Type} (handlers : Registry υ) (to_ : Option String)
    (routeHandlers : RouteHandlers υ) : Except JSError (RouteHandlers υ) :=
  match to_ with
  | none => .ok routeHandlers
  | some name =>
    if name = "" then .ok routeHandlers
    else
      match handlers name with
      | none => .error (.TypeError "type")
      | some mainHandler =>
        if mainHandler.type = some "requestDataStream" then
          if routeHandlers.reqDataStreamHandler.isSome then
            .error (.ApplicationSetupError
              "MappingError: There is only one request stream handler per mapping allowed.")
          else
            .ok { routeHandlers with reqDataStreamHandler := some mainHandler, mainHandler := none }
        else
          .ok { routeHandlers with mainHandler := some mainHandler }

/-- `RoutesManager.prototype.extractHandlersFromRoute`: the `after` loop, the
`then` loop and the `to` block, in this order; an absent list is skipped. -/
def extractHandlersFromRoute {υ : Type} (app : AppContext) (handlers : Registry υ)
    (route : Route) : Except JSError (RouteHandlers υ) :=
  match afterLoop app handlers route.when (route.after.getD []) RouteHandlers.empty with
  | .error e => .error e
  | .ok afterDone =>
    match thenLoop handlers (route.then_.getD []) afterDone with
    | .error e => .error e
    | .ok thenDone => toStep handlers route.to_ thenDone

/-! ## Registering a route -/

/-- What `addRoute` hands to `router.on`: the method, the path and the values
that the route callback closes over. -/
structure Registered (υ : Type) where
  method : String
  uri : String
  context : RouteContext
  routeHandlers : RouteHandlers υ
  handlerToReadBodyPresents : Bool
  bigBodyAlert : Args → Exchange υ → Result υ

/-- The environment filter `route.in && route.in.indexOf(profile) === -1`, where
`profile` is `process.env.NODE_ENV`. -/
def skipped (profile : Option String) (route : Route) : Bool :=
  match route.in_ with
  | none => false
  | some envs =>
    match profile with
    | none => true
    | some env => !envs.contains env

/-- The default `route.when || "GET"`: an absent and an empty method are falsy. -/
def whenOrDefault (route : Route) : String :=
  match route.when with
  | none => "GET"
  | some method => if method = "" then "GET" else method

/-- The default `route.maxLength || 1e6`: an absent and a zero length are falsy. -/
def maxLengthOrDefault (route : Route) : Int :=
  match route.maxLength with
  | none => 1000000
  | some n => if n = 0 then 1000000 else n

/-- The mapping after the two assignments of defaults in `addRoute`. -/
def withDefaults (route : Route) : Route :=
  { route with when := some (whenOrDefault route), maxLength := some (maxLengthOrDefault route) }

/-- The flag `handlerToReadBodyPresents`. -/
def handlerToReadBodyPresents {υ : Type} (routeHandlers : RouteHandlers υ) : Bool :=
  routeHandlers.reqDataStreamHandler.isSome || routeHandlers.reqDataHandlers.length > 0
    || (match routeHandlers.mainHandler with
        | none => false
        | some mainHandler => mainHandler.type == some "requestData")

/-- The method `router.on(method, uri, callback)` of the router.  The router is
the external library `anumargak` and is not part of the sources, so its method
is a parameter of `addRoute`: from the router `ρ` before the call and the
registration it gives the router after the call and the value that the call
throws, if it throws (a router may refuse a registration, for one a method it
does not know or a route it already has). -/
abbrev RouterOn (ρ υ : Type) := ρ → Registered υ → ρ × Option JSError

/-- `RoutesManager.prototype.addRoute`.  The result is the router after the
call, together with the value that the call throws, if it throws.  The router
is touched by `router.on` alone, the last statement of the function. -/
def addRoute {ρ υ : Type} (routerOn : RouterOn ρ υ) (profile : Option String)
    (app : AppContext) (handlers : Registry υ) (router : ρ) (route : Route) :
    ρ × Option JSError :=
  if skipped profile route then (router, none)
  else
    let route1 := withDefaults route
    match extractHandlersFromRoute app handlers route1 with
    | .error e => (router, some e)
    | .ok routeHandlers =>
      match handlers "__exceedContentLength" with
      | none => (router, some (.TypeError "handle"))
      | some fatBody =>
        routerOn router { method := whenOrDefault route, uri := route1.uri,
                          context := { app := app, route := route1 },
                          routeHandlers := routeHandlers,
                          handlerToReadBodyPresents := handlerToReadBodyPresents routeHandlers,
                          bigBodyAlert := fatBody.handle }

/-- A router that accepts every registration: `on` puts it at the end of the
list of the registrations made so far. -/
def recordingOn {υ : Type} : RouterOn (List (Registered υ)) υ :=
  fun router entry => (router ++ [entry], none)

/-- A router that refuses every registration: `on` throws and leaves the router
as it was. -/
def refusingOn {υ : Type} : RouterOn (List (Registered υ)) υ :=
  fun router _ => (router, some (.Error "Invalid method"))

/-! ## The route callback -/

/-- What the route callback and the listeners it attaches do, in order.
`onError`, `onData` and `onEnd` are the listeners attached to the native
request; the steps of a listener can run only after it was attached.
`streamChunk` is a chunk passed to the streaming handler, `accumulate` a chunk
pushed by the fallback of `readRequestBody`, `uncaught` an exception that left
a listener. -/
inductive Event where
  | onError
  | reqHandler (i : Nat)
  | streamBefore
  | removeAllListeners
  | onData
  | onEnd
  | mainHandler
  | resHandler (i : Nat)
  | end_ (data : Data)
  | errorHandler
  | streamChunk (chunk : List Nat)
  | accumulate (chunk : List Nat)
  | bigBodyAlert
  | streamAfter
  | reqDataHandler (i : Nat)
  | uncaught (e : JSError)
  deriving DecidableEq, Repr

/-- How a block of statements ends: control falls through to the next
statement, a `return` is executed, or a value is thrown. -/
inductive Flow (υ : Type) where
  | next (ex : Exchange υ) (trace : List Event)
  | returned (ex : Exchange υ) (trace : List Event)
  | thrown (e : JSError) (ex : Exchange υ) (trace : List Event)

/-- The loop `for(...){ list[i].handle(asked, ans, context); if(ans.answered()) return; }`
from index `i` on; `event` names the stage in the trace. -/
def handlerLoop {υ : Type} (event : Nat → Event) :
    List (Handler υ) → Nat → Exchange υ → List Event → Flow υ
  | [], _, ex, trace => .next ex trace
  | handler :: rest, i, ex, trace =>
    match handler.handle .withContext ex with
    | .throw e ex1 => .thrown e ex1 (trace ++ [event i])
    | .ok ex1 =>
      if ex1.answered then .returned ex1 (trace ++ [event i])
      else handlerLoop event rest (i + 1) ex1 (trace ++ [event i])

/-- The default send at the end of `atEnd`, entered when the answer is still
unanswered.  The stream branch evaluates `nativeResponse`, which is not bound in
the scope of `atEnd`. -/
def defaultSend {υ : Type} (ex : Exchange υ) (trace : List Event) : Flow υ :=
  match ex.data with
  | .stream _ => .thrown (.ReferenceError "nativeResponse") ex trace
  | .undefined => .next ex (trace ++ [.end_ .undefined])
  | .string s => .next ex (trace ++ [.end_ (.string s)])
  | .buffer b => .next ex (trace ++ [.end_ (.buffer b)])
  | .other json =>
    let data : Data := match json with
      | some s => .string s
      | none => .undefined
    .next { ex with data := data } (trace ++ [.end_ data])
  | .unserializable err => .thrown (.Thrown err) ex trace

/-- The function `atEnd`: the main handler, the response handlers, the default
send. -/
def atEnd {υ : Type} (routeHandlers : RouteHandlers υ) (ex : Exchange υ)
    (trace : List Event) : Flow υ :=
  let main : Flow υ :=
    match routeHandlers.mainHandler with
    | none => .next ex trace
    | some mainHandler =>
      match mainHandler.handle .withContext ex with
      | .throw e ex1 => .thrown e ex1 (trace ++ [.mainHandler])
      | .ok ex1 =>
        if ex1.answered then .returned ex1 (trace ++ [.mainHandler])
        else .next ex1 (trace ++ [.mainHandler])
  match main with
  | .next ex1 trace1 =>
    match handlerLoop .resHandler routeHandlers.resHandlers 0 ex1 trace1 with
    | .next ex2 trace2 =>
      if !ex2.answered then defaultSend ex2 trace2 else .next ex2 trace2
    | flow => flow
  | flow => flow

/-- The `try` block of the route callback.  A `return` inside `atEnd` only
leaves `atEnd`, after which the block is at its end. -/
def routeTry {υ : Type} (entry : Registered υ) (ex : Exchange υ)
    (trace : List Event) : Flow υ :=
  match handlerLoop .reqHandler entry.routeHandlers.reqHandlers 0 ex trace with
  | .next ex1 trace1 =>
    if entry.handlerToReadBodyPresents then
      let hooked : Flow υ :=
        match entry.routeHandlers.reqDataStreamHandler.bind (fun h => h.before) with
        | none => .next ex1 trace1
        | some before =>
          match before ex1 with
          | .throw e ex2 => .thrown e ex2 (trace1 ++ [.streamBefore])
          | .ok ex2 =>
            if ex2.answered then .next ex2 (trace1 ++ [.streamBefore, .removeAllListeners])
            else .next ex2 (trace1 ++ [.streamBefore])
      match hooked with
      | .next ex2 trace2 => .next ex2 (trace2 ++ [.onData, .onEnd])
      | flow => flow
    else
      match atEnd entry.routeHandlers ex1 trace1 with
      | .returned ex2 trace2 => .next ex2 trace2
      | flow => flow
  | flow => flow

/-- The callback that `addRoute` registers: it attaches the error listener,
runs the `try` block, and in the `catch` block stores the thrown value and the
context on the answer and calls the `__error` handler with `(asked, ans)`.  A
`thrown` result is an exception that leaves the callback. -/
def routeCallback {υ : Type} (handlers : Registry υ) (entry : Registered υ)
    (ex : Exchange υ) : Flow υ :=
  match routeTry entry ex [.onError] with
  | .thrown e ex1 trace1 =>
    let ex2 := { ex1 with error := some e, context := some entry.context }
    match handlers "__error" with
    | none => .thrown (.TypeError "handle") ex2 trace1
    | some errorHandler =>
      match errorHandler.handle .noContext ex2 with
      | .throw e2 ex3 => .thrown e2 ex3 (trace1 ++ [.errorHandler])
      | .ok ex3 => .next ex3 (trace1 ++ [.errorHandler])
  | flow => flow

/-! ## The listeners on the native request -/

/-- The trace of a flow. -/
def Flow.trace {υ : Type} : Flow υ → List Event
  | .next _ trace => trace
  | .returned _ trace => trace
  | .thrown _ _ trace => trace

/-- The exchange a flow ends with. -/
def Flow.exchange {υ : Type} : Flow υ → Exchange υ
  | .next ex _ => ex
  | .returned ex _ => ex
  | .thrown _ ex _ => ex

/-- The two identifiers that `readRequestBody` uses without binding them:
`route` in `route.maxLength` and `req` in `req.body.push(chunk)`.  Neither is a
parameter of the function or declared in the module, so both are looked up on
the global object.  `routeMaxLength` is `none` when `route` is not defined
there, and `some m` when `route.maxLength` evaluates to the number `m`; `req`
tells whether `req.body.push` can be called. -/
structure Globals where
  routeMaxLength : Option Int
  req : Bool
  deriving DecidableEq, Repr

/-- The global object as the sources leave it: nothing defines `route` or
`req`. -/
def Globals.asShipped : Globals := { routeMaxLength := none, req := false }

/-- The `data` listener of `readRequestBody`, called with one chunk;
`contentLength` is the counter of the closure, and the result carries the
counter after the call.  The streaming handler is called with the chunk alone;
without one the fallback `chunk => { req.body.push(chunk) }` is called.
Nothing catches what the listener throws. -/
def dataListener {υ : Type} (globals : Globals) (entry : Registered υ) (contentLength : Nat)
    (chunk : List Nat) (ex : Exchange υ) (trace : List Event) : Flow υ × Nat :=
  match globals.routeMaxLength with
  | none => (.thrown (.ReferenceError "route") ex trace, contentLength)
  | some maxLength =>
    if (contentLength : Int) < maxLength then
      let contentLength1 := contentLength + chunk.length
      match entry.routeHandlers.reqDataStreamHandler with
      | some streamHandler =>
        match streamHandler.handle (.chunk chunk) ex with
        | .throw e ex1 => (.thrown e ex1 (trace ++ [.streamChunk chunk]), contentLength1)
        | .ok ex1 => (.next ex1 (trace ++ [.streamChunk chunk]), contentLength1)
      | none =>
        if globals.req then (.next ex (trace ++ [.accumulate chunk]), contentLength1)
        else (.thrown (.ReferenceError "req") ex trace, contentLength1)
    else
      match entry.bigBodyAlert .withContext ex with
      | .throw e ex1 => (.thrown e ex1 (trace ++ [.bigBodyAlert]), contentLength)
      | .ok ex1 => (.next ex1 (trace ++ [.bigBodyAlert]), contentLength)

/-- The trace after a listener has ended: an exception that leaves the
listener is recorded as `uncaught`. -/
def Flow.ended {υ : Type} : Flow υ → List Event
  | .next _ trace => trace
  | .returned _ trace => trace
  | .thrown e _ trace => trace ++ [.uncaught e]

/-- The `data` listener over the chunks of a body in arrival order, from the
counter `contentLength` on.  After an exception that leaves the listener the
next chunk is handled as the one before. -/
def dataLoop {υ : Type} (globals : Globals) (entry : Registered υ) :
    List (List Nat) → Nat → Exchange υ → List Event → Exchange υ × List Event × Nat
  | [], contentLength, ex, trace => (ex, trace, contentLength)
  | chunk :: rest, contentLength, ex, trace =>
    dataLoop globals entry rest
      (dataListener globals entry contentLength chunk ex trace).2
      (dataListener globals entry contentLength chunk ex trace).1.exchange
      (dataListener globals entry contentLength chunk ex trace).1.ended

/-- The function `readRequestBody` followed by the chunks of a body: the counter
starts at 0. -/
def readRequestBody {υ : Type} (globals : Globals) (entry : Registered υ)
    (chunks : List (List Nat)) (ex : Exchange υ) (trace : List Event) :
    Exchange υ × List Event × Nat :=
  dataLoop globals entry chunks 0 ex trace

/-- The `end` listener of the route callback.  With an after-hook on the
streaming handler the hook is called; otherwise `asked.body` is replaced by
`asked.body || Buffer.concat(asked.body)`, which keeps a truthy body as it is
and calls `Buffer.concat(undefined)` for a missing one.  Then come the data
handlers and `atEnd`.  The listener runs after the route callback has returned,
so nothing catches what it throws. -/
def endListener {υ : Type} (entry : Registered υ) (ex : Exchange υ)
    (trace : List Event) : Flow υ :=
  let hooked : Flow υ :=
    match entry.routeHandlers.reqDataStreamHandler.bind (fun h => h.after) with
    | some after =>
      match after ex with
      | .throw e ex1 => .thrown e ex1 (trace ++ [.streamAfter])
      | .ok ex1 =>
        if ex1.answered then .returned ex1 (trace ++ [.streamAfter])
        else .next ex1 (trace ++ [.streamAfter])
    | none =>
      match ex.body with
      | .undefined => .thrown (.TypeError "list") ex trace
      | _ => .next ex trace
  match hooked with
  | .next ex1 trace1 =>
    match handlerLoop .reqDataHandler entry.routeHandlers.reqDataHandlers 0 ex1 trace1 with
    | .next ex2 trace2 => atEnd entry.routeHandlers ex2 trace2
    | flow => flow
  | flow => flow

/-- The `error` listener of the route callback: it stores the error on the
answer and evaluates `THIS.handlersrs.get("__error")`.  The routes manager has
the property `handlers` and no property `handlersrs`, so `get` is read off
`undefined`. -/
def errorListener {υ : Type} (err : JSError) (ex : Exchange υ) (trace : List Event) : Flow υ :=
  .thrown (.TypeError "get") { ex with error := some err } trace

/-! ## The default error handler -/

/-- Modelled from the spec: the calls that the default error handler makes on
the response facade, `status(code, message)` and `close(message)` (`HttpAnswer`
is not in the sources), and its call of `logger.log.error`. -/
inductive FacadeCall where
  | status (code : Nat) (message : String)
  | close (body : String)
  | logError (error : Option JSError)
  deriving DecidableEq, Repr

/-- Whether a call writes to the response; a call of the logger does not. -/
def FacadeCall.onResponse : FacadeCall → Bool
  | .status _ _ => true
  | .close _ => true
  | .logError _ => false

/-- The function `exports.handle` of `defaultHandlers/exceptionHandler.js`: it
reads `answer.error`, calls `answer.status` and `answer.close`, and logs the
error. -/
def exceptionHandler.handle {υ : Type} (ex : Exchange υ) : List FacadeCall :=
  let error := ex.error
  [.status 500 "Internal Server Error", .close "Internal Server Error", .logError error]

/-! ## The handler runner -/

/-- A before- or after-hook of a runner; it is called with `(asked, handlerName)`. -/
abbrev Hook (υ : Type) := String → Exchange υ → Result υ

/-- The calls of a run: the `i`-th before-hook, the handler, the `i`-th
after-hook; the hooks carry the handler name they are called with. -/
inductive RunnerCall where
  | before (i : Nat) (handlerName : String)
  | handler
  | after (i : Nat) (handlerName : String)
  deriving DecidableEq, Repr

/-- An object built by `Runner`: `before` and `after` are set only when the
constructor sets them. -/
structure Runner (υ : Type) where
  handlerName : String
  handler : Handler υ
  before : Option (List (Hook υ))
  after : Option (List (Hook υ))

/-- The test `before && Array.isArray(before) && before.length > 0`; `none` is
an argument that is missing or not an array. -/
def nonEmptyArray {υ : Type} (hooks : Option (List (Hook υ))) : Option (List (Hook υ)) :=
  match hooks with
  | none => none
  | some l => if l.length > 0 then some l else none

/-- The constructor `Runner(name, handler, before, after)`. -/
def Runner.create {υ : Type} (name : String) (handler : Handler υ)
    (before after : Option (List (Hook υ))) : Runner υ :=
  { handlerName := name, handler := handler,
    before := if !handler.inParallel then nonEmptyArray before else none,
    after := if !handler.inParallel then nonEmptyArray after else none }

/-- The function `callAll(arrayOfFunctions, asked, handlerName)` from the index
`i` on; `call` names the calls in the trace. -/
def callAll {υ : Type} (call : Nat → RunnerCall) (handlerName : String) :
    List (Hook υ) → Nat → Exchange υ → List RunnerCall → Result υ × List RunnerCall
  | [], _, ex, calls => (.ok ex, calls)
  | hook :: rest, i, ex, calls =>
    match hook handlerName ex with
    | .throw e ex1 => (.throw e ex1, calls ++ [call i])
    | .ok ex1 => callAll call handlerName rest (i + 1) ex1 (calls ++ [call i])

/-- `Runner.prototype.runBefore`. -/
def Runner.runBefore {υ : Type} (runner : Runner υ) (ex : Exchange υ)
    (calls : List RunnerCall) : Result υ × List RunnerCall :=
  match runner.before with
  | none => (.ok ex, calls)
  | some hooks =>
    callAll (fun i => .before i runner.handlerName) runner.handlerName hooks 0 ex calls

/-- `Runner.prototype.runAfter`. -/
def Runner.runAfter {υ : Type} (runner : Runner υ) (ex : Exchange υ)
    (calls : List RunnerCall) : Result υ × List RunnerCall :=
  match runner.after with
  | none => (.ok ex, calls)
  | some hooks =>
    callAll (fun i => .after i runner.handlerName) runner.handlerName hooks 0 ex calls

/-- `Runner.prototype.run`: the before-hooks, the handler with `(asked,
answer)`, the after-hooks.  A `throw` is the rejection of the promise that `run`
returns. -/
def Runner.run {υ : Type} (runner : Runner υ) (ex : Exchange υ) :
    Result υ × List RunnerCall :=
  match runner.runBefore ex [] with
  | (.throw e ex1, calls1) => (.throw e ex1, calls1)
  | (.ok ex1, calls1) =>
    match runner.handler.handle .noContext ex1 with
    | .throw e ex2 => (.throw e ex2, calls1 ++ [.handler])
    | .ok ex2 => runner.runAfter ex2 (calls1 ++ [.handler])

/-! ## The Muneem instance -/

/-- A data property as a lookup along a prototype chain sees it: its name,
whether its value is truthy, and whether it is writable. -/
structure Property where
  name : String
  truthy : Bool
  writable : Bool
  deriving DecidableEq, Repr

/-- A value given to `addToStore` as a resource, as far as the store tells
values apart.  `primitive` is a primitive value other than `null`, with its
truthiness.  `object` is an object or a function: `props` are the data
properties that a lookup through the object finds before `Object.prototype`
(its own ones first, then those of its prototypes), and `ordinary` tells whether
its prototype chain ends in `Object.prototype`; accessor properties are not
described.  `id` tells values of the same description apart. -/
inductive Resource where
  | primitive (truthy : Bool) (id : Nat)
  | null
  | object (id : Nat) (props : List Property) (ordinary : Bool)
  deriving DecidableEq, Repr

/-- Truthiness of a resource: `null` is falsy, every object is truthy. -/
def Resource.truthy : Resource → Bool
  | .primitive truthy _ => truthy
  | .null => false
  | .object _ _ _ => true

/-- String-keyed properties of `Object.prototype`; each of them holds a
function or an object.  All are writable data properties, except `__proto__`,
which is an accessor: its getter yields the prototype of the object, and its
setter replaces the prototype. -/
def objectInheritedKeys : List String :=
  ["constructor", "hasOwnProperty", "isPrototypeOf", "propertyIsEnumerable",
   "toLocaleString", "toString", "valueOf", "__defineGetter__", "__defineSetter__",
   "__lookupGetter__", "__lookupSetter__", "__proto__"]

/-- The object `_store` of the constructor: its own properties, and its
prototype chain as a lookup sees it, that is the data properties found on its
prototypes before `Object.prototype`, and whether the chain ends in
`Object.prototype`. -/
structure Store where
  own : String → Option Resource
  inherited : List Property
  ordinary : Bool

/-- The literal `{}`: no own property, and `Object.prototype` as prototype. -/
def Store.empty : Store := { own := fun _ => none, inherited := [], ordinary := true }

/-- The part of a `Muneem` instance that the setup operations read and write:
`state`, the handlers container (as the list of its `add` calls), the object
`_store`, the listeners of the event emitter, and the three arrays of the
routes manager that `_addAfterHandlers` pushes to.  Handlers and callbacks are
kept as identifiers. -/
structure Instance where
  state : String
  handlers : List (String × Nat)
  store : Store
  listeners : List (String × Nat)
  afterEachPreHandler : List Nat
  afterEachPostHandler : List Nat
  afterMainHandler : List Nat

/-- `Muneem.prototype.checkIfNotStarted`. -/
def checkIfNotStarted (inst : Instance) : Except JSError Unit :=
  if inst.state = "started" then
    .error (.ApplicationSetupError "You need to complete the setup before starting the server.")
  else .ok ()

/-- `Muneem.prototype.addHandler`: `this.containers.handlers.add(name, handler)`
and nothing else.  Modelled from the spec: the container (not in the sources)
records the registration. -/
def addHandler (inst : Instance) (name : String) (handler : Nat) : Except JSError Instance :=
  .ok { inst with handlers := inst.handlers ++ [(name, handler)] }

/-- Truthiness of the member access `_store[_name]`: the own property when
there is one, otherwise the first property of that name along the prototype
chain.  The getter of `__proto__` yields the prototype, an object. -/
def storeTruthy (store : Store) (name : String) : Bool :=
  match store.own name with
  | some resource => resource.truthy
  | none =>
    match store.inherited.find? (fun property => property.name == name) with
    | some property => property.truthy
    | none => store.ordinary && objectInheritedKeys.contains name

/-- The store after the assignment `_store[_name] = resource` (in sloppy mode,
as the module has no `use strict`).  An own property is overwritten.  Without
one, the first property of that name along the prototype chain decides: a
writable data property, or no property at all, lets the assignment add an own
property to `_store`; a data property that is not writable makes it do nothing;
and the accessor `__proto__` of `Object.prototype` has its setter called, which
replaces the prototype of `_store` by an object or by `null` and ignores every
other value. -/
def storeAssign (store : Store) (name : String) (resource : Resource) : Store :=
  let defined : Store :=
    { store with own := fun key => if key = name then some resource else store.own key }
  match store.own name with
  | some _ => defined
  | none =>
    match store.inherited.find? (fun property => property.name == name) with
    | some property => if property.writable then defined else store
    | none =>
      if store.ordinary && name == "__proto__" then
        match resource with
        | .primitive _ _ => store
        | .null => { store with inherited := [], ordinary := false }
        | .object _ props ordinary => { store with inherited := props, ordinary := ordinary }
      else defined

/-- The method `addToStore` of the constructor.  The error is made by calling
`ApplicationSetupError(...)` without `new`; `withoutNew` is the value that this
throws (the module `ApplicationSetupError` is not in the sources). -/
def addToStore (withoutNew : String → JSError) (inst : Instance) (name : String)
    (resource : Resource) (safe : Bool) : Except JSError Instance :=
  match checkIfNotStarted inst with
  | .error e => .error e
  | .ok _ =>
    if storeTruthy inst.store name && safe then
      .error (withoutNew ("You\x27re trying to overwrite a resource " ++ name))
    else
      .ok { inst with store := storeAssign inst.store name resource }

/-- The normalisation of an event name: every hyphen is removed by `replace`,
then `toLowerCase()` is applied; for names in ASCII. -/
def lowerName (eventName : String) : String :=
  String.mk ((eventName.toList.filter (fun c => c != '-')).map Char.toLower)

/-- `Muneem.prototype._addAfterHandlers`. -/
def addAfterHandlers (inst : Instance) (handlerType : String) (fn : Nat) :
    Except JSError Instance :=
  if handlerType = "pre" ∨ handlerType = "prehandler" then
    .ok { inst with afterEachPreHandler := inst.afterEachPreHandler ++ [fn] }
  else if handlerType = "post" ∨ handlerType = "posthandler" then
    .ok { inst with afterEachPostHandler := inst.afterEachPostHandler ++ [fn] }
  else if handlerType = "each" ∨ handlerType = "eachhandler" then
    .ok { inst with afterEachPreHandler := inst.afterEachPreHandler ++ [fn],
                    afterEachPostHandler := inst.afterEachPostHandler ++ [fn],
                    afterMainHandler := inst.afterMainHandler ++ [fn] }
  else if handlerType = "main" ∨ handlerType = "mainhandler" then
    .ok { inst with afterMainHandler := inst.afterMainHandler ++ [fn] }
  else
    .error (.Error ("You\x27ve provided an invalid event name: " ++ handlerType))

/-- The internal event on which `Muneem.prototype.after` registers a callback
given under the name `eventName`, or `none` when the name is passed on to
`_addAfterHandlers`.  The names `request` and `route` are registered under the
spelling they were given in. -/
def afterEvent (eventName : String) : Option String :=
  let eventNameInLower := lowerName eventName
  if eventNameInLower = "serverstart" ∨ eventNameInLower = "start" then some "afterServerStart"
  else if eventNameInLower = "request" then some eventName
  else if eventNameInLower = "route" then some eventName
  else if eventNameInLower = "exceedcontentlength" ∨ eventNameInLower = "fatbody" then
    some "fat-body-notify"
  else if eventNameInLower = "send" ∨ eventNameInLower = "answer"
      ∨ eventNameInLower = "response" then some "afterAnswer"
  else if eventNameInLower = "close" ∨ eventNameInLower = "serverclose" then
    some "afterServerClose"
  else if eventNameInLower = "routenotfound" ∨ eventNameInLower = "missingmapping"
      ∨ eventNameInLower = "defaultroute" then some "route-not-found-notify"
  else if eventNameInLower = "error" then some "error-notify"
  else none

/-- `Muneem.prototype.after`; a missing callback is `none`, and the empty name
is falsy. -/
def after (inst : Instance) (eventName : String) (callback : Option Nat) :
    Except JSError Instance :=
  match checkIfNotStarted inst with
  | .error e => .error e
  | .ok _ =>
    match callback with
    | none => .error (.Error "Please provide the valid parameters")
    | some fn =>
      if eventName = "" then .error (.Error "Please provide the valid parameters")
      else
        match afterEvent eventName with
        | some internal => .ok { inst with listeners := inst.listeners ++ [(internal, fn)] }
        | none => addAfterHandlers inst (lowerName eventName) fn

/-! ## Kinds of handlers and fixtures -/

/-- The test `handler.type === "requestDataStream"`. -/
def Handler.isStream {υ : Type} (h : Handler υ) : Bool := h.type == some "requestDataStream"

/-- The test `handler.type === "requestData"`. -/
def Handler.isData {υ : Type} (h : Handler υ) : Bool := h.type == some "requestData"

/-- The kind `PlainRequest` of the data model: type `"request"` or no type tag. -/
def Handler.isPlainRequest {υ : Type} (h : Handler υ) : Bool :=
  h.type == some "request" || h.type == none

/-- A handler of the unit tests: `() => 30` with a type tag; it leaves the
exchange as it is. -/
def testHandler (name : String) (type : Option String) : Handler Unit :=
  { name := name, type := type, handle := fun _ ex => .ok ex, before := none, after := none,
    inParallel := false }

/-- The container of `tests/unit/routesmapper_test.js`. -/
def testHandlers : Registry Unit := fun name =>
  if name = "auth" then some (testHandler "auth" (some "request"))
  else if name = "parallel" then some (testHandler "parallel" none)
  else if name = "stream" then some (testHandler "stream" (some "requestDataStream"))
  else if name = "post" then some (testHandler "post" (some "response"))
  else if name = "main" then some (testHandler "main" (some "requestData"))
  else none

/-- The container of the unit tests with one more handler, registered under
the empty name. -/
def emptyNameHandlers : Registry Unit := fun name =>
  if name = "" then some (testHandler "" (some "request")) else testHandlers name

/-- The default application options of `muneem.js`. -/
def defaultOptions : AppContext := { alwaysReadRequestPayload := false, maxLength := 1000000 }

/-- A mapping with a path and nothing else. -/
def bareRoute : Route :=
  { when := none, uri := "/", in_ := none, after := none, to_ := none, then_ := none,
    maxLength := none }

/-- Handlers called one after the other, each of which returns and leaves the
answer unanswered: the exchange after the last of them, and `none` as soon as
one of them throws or leaves the answer answered. -/
def passUnanswered {υ : Type} : List (Handler υ) → Exchange υ → Option (Exchange υ)
  | [], ex => some ex
  | handler :: rest, ex =>
    match handler.handle .withContext ex with
    | .ok ex1 => if ex1.answered then none else passUnanswered rest ex1
    | .throw _ _ => none

/-- A handler that answers: it marks the answer as answered. -/
def answeringHandler (name : String) (type : Option String) : Handler Unit :=
  { name := name, type := type, handle := fun _ ex => .ok { ex with answered := true },
    before := none, after := none, inParallel := false }

/-- The exchange of a request that no handler has seen yet. -/
def freshExchange : Exchange Unit :=
  { answered := false, data := .undefined, error := none, context := none,
    body := .undefined, user := () }

/-- A registered route with three pre-handlers, the second of which answers,
a data handler, a main handler and a response handler. -/
def answeringRoute : Registered Unit :=
  { method := "POST", uri := "/",
    context := { app := defaultOptions, route := bareRoute },
    routeHandlers :=
      { reqHandlers := [testHandler "auth" (some "request"),
                        answeringHandler "deny" (some "request"),
                        testHandler "parallel" none],
        reqDataStreamHandler := none,
        reqDataHandlers := [testHandler "main" (some "requestData")],
        resHandlers := [testHandler "post" (some "response")],
        mainHandler := some (testHandler "main" (some "requestData")) },
    handlerToReadBodyPresents := true,
    bigBodyAlert := fun _ ex => .ok ex }

/-- The container of the unit tests together with the two handlers that the
routes manager looks up by itself, `__error` and `__exceedContentLength`. -/
def appHandlers : Registry Unit := fun name =>
  if name = "__error" then some (testHandler "__error" none)
  else if name = "__exceedContentLength" then some (testHandler "__exceedContentLength" none)
  else testHandlers name

/-- A streaming handler whose before-hook answers; it has no after-hook. -/
def hookedStreamHandler : Handler Unit :=
  { name := "upload", type := some "requestDataStream", handle := fun _ ex => .ok ex,
    before := some (fun ex => .ok { ex with answered := true }), after := none,
    inParallel := false }

/-- A registered route with the pre-handler `auth`, the streaming handler
`upload` with its answering before-hook, no data handler, the main handler
`echo` and the response handler `post`. -/
def hookedRoute : Registered Unit :=
  { method := "POST", uri := "/upload",
    context := { app := defaultOptions, route := bareRoute },
    routeHandlers :=
      { reqHandlers := [testHandler "auth" (some "request")],
        reqDataStreamHandler := some hookedStreamHandler,
        reqDataHandlers := [],
        resHandlers := [testHandler "post" (some "response")],
        mainHandler := some (testHandler "echo" none) },
    handlerToReadBodyPresents := true,
    bigBodyAlert := fun _ ex => .ok ex }

/-- The exchange of a fresh request whose `asked.body` starts as an empty
array. -/
def arrayBodyExchange : Exchange Unit := { freshExchange with body := .chunks [] }

/-- Route handlers with the main handler `echo`, which answers, and the
response handlers `post`, `deny` (which answers) and `late`. -/
def respondingHandlers (main : Option (Handler Unit)) : RouteHandlers Unit :=
  { reqHandlers := [], reqDataStreamHandler := none, reqDataHandlers := [],
    resHandlers := [testHandler "post" (some "response"),
                    answeringHandler "deny" (some "response"),
                    testHandler "late" (some "response")],
    mainHandler := main }

/-- The condition under which a pipeline needs the request body, in the words
of the specification: a streaming handler is present, or there is at least one
buffered-data handler, or the main handler is of kind requestData. -/
def needsBody {υ : Type} (rh : RouteHandlers υ) : Prop :=
  rh.reqDataStreamHandler.isSome = true ∨ rh.reqDataHandlers ≠ []
    ∨ ∃ m, rh.mainHandler = some m ∧ m.type = some "requestData"

/-- The route `{uri: "/", after: [auth, main], to: parallel, then: [post]}` as
`addRoute` registers it with the container `appHandlers`. -/
def registeredDataRoute : Registered Unit :=
  { method := "GET", uri := "/",
    context := { app := defaultOptions,
                 route := withDefaults { bareRoute with after := some ["auth", "main"],
                                                        to_ := some "parallel",
                                                        then_ := some ["post"] } },
    routeHandlers :=
      { reqHandlers := [testHandler "auth" (some "request")],
        reqDataStreamHandler := none,
        reqDataHandlers := [testHandler "main" (some "requestData")],
        resHandlers := [testHandler "post" (some "response")],
        mainHandler := some (testHandler "parallel" none) },
    handlerToReadBodyPresents := true,
    bigBodyAlert := (testHandler "__exceedContentLength" none).handle }

/-- A streaming handler whose before-hook returns and leaves the answer as it
is. -/
def uploadHandler : Handler Unit :=
  { name := "upload", type := some "requestDataStream", handle := fun _ ex => .ok ex,
    before := some (fun ex => .ok ex), after := none, inParallel := false }

/-- The container `appHandlers` with the streaming handler `upload`. -/
def uploadHandlers : Registry Unit := fun name =>
  if name = "upload" then some uploadHandler else appHandlers name

/-- The mapping `{when: "POST", uri: "/", after: [auth, upload], to: parallel}`. -/
def uploadRoute : Route :=
  { bareRoute with when := some "POST", after := some ["auth", "upload"],
                   to_ := some "parallel" }

/-- The mapping `uploadRoute` as `addRoute` registers it with the container
`uploadHandlers`. -/
def registeredUploadRoute : Registered Unit :=
  { method := "POST", uri := "/",
    context := { app := defaultOptions, route := withDefaults uploadRoute },
    routeHandlers :=
      { reqHandlers := [testHandler "auth" (some "request")],
        reqDataStreamHandler := some uploadHandler,
        reqDataHandlers := [],
        resHandlers := [],
        mainHandler := some (testHandler "parallel" none) },
    handlerToReadBodyPresents := true,
    bigBodyAlert := (testHandler "__exceedContentLength" none).handle }

/-- The container `appHandlers` with the pre-handler `deny`, which answers. -/
def guardedHandlers : Registry Unit := fun name =>
  if name = "deny" then some (answeringHandler "deny" (some "request")) else appHandlers name

/-- The mapping `{when: "POST", uri: "/", after: [deny, main]}`. -/
def deniedRoute : Route :=
  { bareRoute with when := some "POST", after := some ["deny", "main"] }

/-- The mapping `deniedRoute` as `addRoute` registers it with the container
`guardedHandlers`. -/
def registeredDeniedRoute : Registered Unit :=
  { method := "POST", uri := "/",
    context := { app := defaultOptions, route := withDefaults deniedRoute },
    routeHandlers :=
      { reqHandlers := [answeringHandler "deny" (some "request")],
        reqDataStreamHandler := none,
        reqDataHandlers := [testHandler "main" (some "requestData")],
        resHandlers := [],
        mainHandler := none },
    handlerToReadBodyPresents := true,
    bigBodyAlert := (testHandler "__exceedContentLength" none).handle }

/-- The mapping `{when: "POST", uri: "/", maxLength: -1, after: [stream]}`. -/
def cappedRoute : Route :=
  { bareRoute with when := some "POST", maxLength := some (-1), after := some ["stream"] }

/-- The mapping `cappedRoute` as `addRoute` registers it with the container
`appHandlers`. -/
def registeredCappedRoute : Registered Unit :=
  { method := "POST", uri := "/",
    context := { app := defaultOptions, route := withDefaults cappedRoute },
    routeHandlers :=
      { RouteHandlers.empty with
        reqDataStreamHandler := some (testHandler "stream" (some "requestDataStream")) },
    handlerToReadBodyPresents := true,
    bigBodyAlert := (testHandler "__exceedContentLength" none).handle }

/-- The chunks that a trace delivered downstream, in order: those passed to
the streaming handler and those pushed by the fallback. -/
def delivered : List Event → List (List Nat)
  | [] => []
  | .streamChunk chunk :: rest => chunk :: delivered rest
  | .accumulate chunk :: rest => chunk :: delivered rest
  | _ :: rest => delivered rest

/-- The number of bytes of a list of chunks. -/
def bytes (chunks : List (List Nat)) : Nat := (chunks.map List.length).sum

/-- A registered route with the streaming handler `stream` of the unit tests
and the main handler `parallel`. -/
def streamingRoute : Registered Unit :=
  { method := "POST", uri := "/stream",
    context := { app := defaultOptions, route := bareRoute },
    routeHandlers :=
      { reqHandlers := [],
        reqDataStreamHandler := some (testHandler "stream" (some "requestDataStream")),
        reqDataHandlers := [],
        resHandlers := [],
        mainHandler := some (testHandler "parallel" none) },
    handlerToReadBodyPresents := true,
    bigBodyAlert := fun _ ex => .ok ex }

/-- A handler that records, in the user state, the body it is called with. -/
def recordingHandler (name : String) (type : Option String) : Handler (List Body) :=
  { name := name, type := type,
    handle := fun _ ex => .ok { ex with user := ex.user ++ [ex.body] },
    before := none, after := none, inParallel := false }

/-- The route `{after: [readJson], to: echo}` with the buffered-data handler
`readJson` and the main handler `echo`, both recording the body they see; there
is no streaming handler. -/
def recordingRoute : Registered (List Body) :=
  { method := "POST", uri := "/echo",
    context := { app := defaultOptions, route := bareRoute },
    routeHandlers :=
      { reqHandlers := [],
        reqDataStreamHandler := none,
        reqDataHandlers := [recordingHandler "readJson" (some "requestData")],
        resHandlers := [],
        mainHandler := some (recordingHandler "echo" none) },
    handlerToReadBodyPresents := true,
    bigBodyAlert := fun _ ex => .ok ex }

/-- The exchange of a fresh request whose `asked.body` starts as `body`. -/
def recordingExchange (body : Body) : Exchange (List Body) :=
  { answered := false, data := .undefined, error := none, context := none,
    body := body, user := [] }

/-- A route whose streaming handler `upload` has a before-hook that answers and
the after-hook `after`, with the data handler `main` and the main handler
`echo`. -/
def hookedDataRoute (after : Option (Exchange Unit → Result Unit)) : Registered Unit :=
  { method := "POST", uri := "/upload",
    context := { app := defaultOptions, route := bareRoute },
    routeHandlers :=
      { reqHandlers := [],
        reqDataStreamHandler := some { hookedStreamHandler with after := after },
        reqDataHandlers := [testHandler "main" (some "requestData")],
        resHandlers := [],
        mainHandler := some (testHandler "echo" none) },
    handlerToReadBodyPresents := true,
    bigBodyAlert := fun _ ex => .ok ex }

/-- A handler that throws the value `boom`. -/
def throwingHandler (name : String) (type : Option String) : Handler Unit :=
  { name := name, type := type, handle := fun _ ex => .throw (.Thrown "boom") ex,
    before := none, after := none, inParallel := false }

/-- A route with the given pre-handlers and data handlers, the main handler
`echo` and the response handler `post`. -/
def stagedRoute (reqHandlers reqDataHandlers : List (Handler Unit)) : Registered Unit :=
  { method := "POST", uri := "/",
    context := { app := defaultOptions, route := bareRoute },
    routeHandlers :=
      { reqHandlers := reqHandlers,
        reqDataStreamHandler := none,
        reqDataHandlers := reqDataHandlers,
        resHandlers := [testHandler "post" (some "response")],
        mainHandler := some (testHandler "echo" none) },
    handlerToReadBodyPresents := !reqDataHandlers.isEmpty,
    bigBodyAlert := fun _ ex => .ok ex }

/-- The number of hooks that a runner of `handler` keeps from the argument
`hooks`: none for a handler marked `inParallel`. -/
def hookCount {υ : Type} (handler : Handler υ) (hooks : Option (List (Hook υ))) : Nat :=
  if handler.inParallel then 0 else (hooks.getD []).length

/-- The calls of a run in the words of the specification: every before-hook in
array order with the handler name, the handler once, every after-hook in array
order with the handler name; no hook for a handler marked `inParallel`. -/
def fullSequence {υ : Type} (name : String) (handler : Handler υ)
    (before after : Option (List (Hook υ))) : List RunnerCall :=
  (List.range (hookCount handler before)).map (fun i => RunnerCall.before i name)
    ++ [RunnerCall.handler]
    ++ (List.range (hookCount handler after)).map (fun i => RunnerCall.after i name)

/-- A hook that returns. -/
def passHook : Hook Unit := fun _ ex => .ok ex

/-- A `Muneem` instance right after construction, with an empty container, an
empty store and no listener. -/
def newInstance : Instance :=
  { state := "created", handlers := [], store := Store.empty, listeners := [],
    afterEachPreHandler := [], afterEachPostHandler := [], afterMainHandler := [] }

/-- A `Muneem` instance after `start()`. -/
def startedInstance : Instance := { newInstance with state := "started" }

/-- An instance whose store holds the falsy resource 0 under the name `flag`
and an object under the name `db`. -/
def storedInstance : Instance :=
  { newInstance with
    store :=
      { Store.empty with
        own := fun key =>
          if key = "flag" then some (.primitive false 0)
          else if key = "db" then some (.object 1 [] true)
          else none } }

/-- The error class called with `new`, as a stand-in for the unknown result of
the call without `new`. -/
def asSetupError (message : String) : JSError := .ApplicationSetupError message

/-- The mapping `{when: "POST", uri: "/", maxLength: 2048, after: [auth]}`. -/
def postRoute : Route :=
  { bareRoute with when := some "POST", maxLength := some 2048, after := some ["auth"] }

/-- The mapping `postRoute` as `addRoute` registers it with the container
`appHandlers`. -/
def registeredPostRoute : Registered Unit :=
  { method := "POST", uri := "/",
    context := { app := defaultOptions, route := postRoute },
    routeHandlers :=
      { RouteHandlers.empty with reqHandlers := [testHandler "auth" (some "request")] },
    handlerToReadBodyPresents := false,
    bigBodyAlert := (testHandler "__exceedContentLength" none).handle }

/-! ## Lemmas on the compilation loops -/

theorem afterLoop_append {υ : Type} (app : AppContext) (handlers : Registry υ)
    (when : Option String) (front back : List String) (rh : RouteHandlers υ) :
    afterLoop app handlers when (front ++ back) rh =
      match afterLoop app handlers when front rh with
      | .error e => .error e
      | .ok rh1 => afterLoop app handlers when back rh1 := by
  induction front generalizing rh with
  | nil => rfl
  | cons n ns ih =>
    simp only [List.cons_append, afterLoop]
    cases afterStep app handlers when rh n with
    | error e => rfl
    | ok rh1 => exact ih rh1

theorem thenLoop_append {υ : Type} (handlers : Registry υ)
    (front back : List String) (rh : RouteHandlers υ) :
    thenLoop handlers (front ++ back) rh =
      match thenLoop handlers front rh with
      | .error e => .error e
      | .ok rh1 => thenLoop handlers back rh1 := by
  induction front generalizing rh with
  | nil => rfl
  | cons n ns ih =>
    simp only [List.cons_append, thenLoop]
    cases thenStep handlers rh n with
    | error e => rfl
    | ok rh1 => exact ih rh1

theorem afterStep_congr {υ : Type} (app : AppContext) (handlers : Registry υ)
    (w1 w2 : Option String) (hw : dontHaveBodyAt w1 = dontHaveBodyAt w2)
    (rh : RouteHandlers υ) (n : String) :
    afterStep app handlers w1 rh n = afterStep app handlers w2 rh n := by
  unfold afterStep
  rw [hw]

theorem afterLoop_congr {υ : Type} (app : AppContext) (handlers : Registry υ)
    (w1 w2 : Option String) (hw : dontHaveBodyAt w1 = dontHaveBodyAt w2)
    (names : List String) (rh : RouteHandlers υ) :
    afterLoop app handlers w1 names rh = afterLoop app handlers w2 names rh := by
  induction names generalizing rh with
  | nil => rfl
  | cons n ns ih =>
    simp only [afterLoop, afterStep_congr app handlers w1 w2 hw]
    cases afterStep app handlers w2 rh n with
    | error e => rfl
    | ok rh1 => exact ih rh1

theorem dontHaveBodyAt_withDefaults (route : Route) :
    dontHaveBodyAt (withDefaults route).when = dontHaveBodyAt route.when := by
  unfold withDefaults whenOrDefault
  cases hw : route.when with
  | none => simp only []; decide
  | some m =>
    by_cases hm : m = ""
    · subst hm; simp only [if_true]; decide
    · simp only [hm, if_false]

theorem extractHandlersFromRoute_withDefaults {υ : Type} (app : AppContext)
    (handlers : Registry υ) (route : Route) :
    extractHandlersFromRoute app handlers (withDefaults route) =
      extractHandlersFromRoute app handlers route := by
  have hw := dontHaveBodyAt_withDefaults route
  unfold extractHandlersFromRoute
  rw [afterLoop_congr app handlers _ _ hw]
  rfl

/-- The `after` loop alone: a mapping with the `after` list `names` and neither
`then` nor `to`. -/
theorem extractHandlersFromRoute_after_only {υ : Type} (app : AppContext)
    (handlers : Registry υ) (route : Route) (names : List String) :
    extractHandlersFromRoute app handlers
        { route with after := some names, then_ := none, to_ := none } =
      afterLoop app handlers route.when names RouteHandlers.empty := by
  unfold extractHandlersFromRoute
  simp only [Option.getD]
  cases afterLoop app handlers route.when names RouteHandlers.empty with
  | error e => rfl
  | ok rh => rfl

theorem afterStep_error {υ : Type} {app : AppContext} {handlers : Registry υ}
    {when : Option String} {rh : RouteHandlers υ} {n : String} {e : JSError}
    (h : afterStep app handlers when rh n = .error e) :
    ∃ msg, e = .ApplicationSetupError msg := by
  unfold afterStep at h
  split at h
  · exact ⟨_, (Except.error.inj h).symm⟩
  · split at h
    · exact ⟨_, (Except.error.inj h).symm⟩
    · split at h
      · split at h
        · exact ⟨_, (Except.error.inj h).symm⟩
        · split at h
          · exact ⟨_, (Except.error.inj h).symm⟩
          · cases h
      · split at h <;> cases h

theorem afterLoop_error {υ : Type} {app : AppContext} {handlers : Registry υ}
    {when : Option String} {names : List String} {rh : RouteHandlers υ} {e : JSError}
    (h : afterLoop app handlers when names rh = .error e) :
    ∃ msg, e = .ApplicationSetupError msg := by
  induction names generalizing rh with
  | nil => cases h
  | cons n ns ih =>
    simp only [afterLoop] at h
    cases hs : afterStep app handlers when rh n with
    | error e1 =>
      rw [hs] at h
      cases h
      exact afterStep_error hs
    | ok rh1 =>
      rw [hs] at h
      exact ih h

/-- What an accepted step of the `after` loop did. -/
theorem afterStep_ok {υ : Type} {app : AppContext} {handlers : Registry υ}
    {when : Option String} {rh rh1 : RouteHandlers υ} {n : String}
    (h : afterStep app handlers when rh n = .ok rh1) :
    ∃ hd, handlers n = some hd ∧
      ((hd.type = some "requestDataStream" ∧ rh.reqDataHandlers = []
          ∧ rh.reqDataStreamHandler = none
          ∧ rh1 = { rh with reqDataStreamHandler := some hd })
       ∨ (hd.type = some "requestData"
          ∧ rh1 = { rh with reqDataHandlers := rh.reqDataHandlers ++ [hd] })
       ∨ (hd.type ≠ some "requestDataStream" ∧ hd.type ≠ some "requestData"
          ∧ rh1 = { rh with reqHandlers := rh.reqHandlers ++ [hd] })) := by
  unfold afterStep at h
  split at h
  · cases h
  · rename_i hd hhd
    refine ⟨hd, hhd, ?_⟩
    split at h
    · cases h
    · split at h
      · rename_i hstream
        split at h
        · cases h
        · rename_i hlen
          split at h
          · cases h
          · rename_i hsome
            left
            refine ⟨hstream, ?_, ?_, (Except.ok.inj h).symm⟩
            · cases hl : rh.reqDataHandlers with
              | nil => rfl
              | cons a l => rw [hl] at hlen; simp at hlen
            · cases ho : rh.reqDataStreamHandler with
              | none => rfl
              | some s => rw [ho] at hsome; simp at hsome
      · rename_i hstream
        split at h
        · rename_i hdata
          right; left
          exact ⟨hdata, (Except.ok.inj h).symm⟩
        · rename_i hdata
          right; right
          exact ⟨hstream, hdata, (Except.ok.inj h).symm⟩

/-- What an accepted run of the `after` loop did: every name resolved, the
data handlers and the other non-streaming handlers were appended in order, and
at most one streaming handler was stored. -/
theorem afterLoop_ok {υ : Type} {app : AppContext} {handlers : Registry υ}
    {when : Option String} {names : List String} {rh rh1 : RouteHandlers υ}
    (h : afterLoop app handlers when names rh = .ok rh1) :
    ∃ hs : List (Handler υ), names.map handlers = hs.map some
      ∧ rh1.reqHandlers = rh.reqHandlers ++ hs.filter (fun x => !x.isData && !x.isStream)
      ∧ rh1.reqDataHandlers = rh.reqDataHandlers ++ hs.filter Handler.isData
      ∧ rh1.resHandlers = rh.resHandlers
      ∧ rh1.mainHandler = rh.mainHandler
      ∧ (hs.filter Handler.isStream).length
          + (if rh.reqDataStreamHandler.isSome then 1 else 0) ≤ 1
      ∧ rh1.reqDataStreamHandler
          = (match rh.reqDataStreamHandler with
             | some s => some s
             | none => (hs.filter Handler.isStream).head?) := by
  induction names generalizing rh with
  | nil =>
    simp only [afterLoop] at h
    cases h
    refine ⟨[], rfl, by simp, by simp, rfl, rfl, ?_, ?_⟩
    · cases rh1.reqDataStreamHandler <;> simp
    · cases rh1.reqDataStreamHandler <;> simp
  | cons n ns ih =>
    simp only [afterLoop] at h
    cases hstep : afterStep app handlers when rh n with
    | error e => rw [hstep] at h; cases h
    | ok rh2 =>
      rw [hstep] at h
      obtain ⟨hs, hmap, hreq, hdata, hres, hmain, hcount, hslot⟩ := ih h
      obtain ⟨hd, hhd, hcase⟩ := afterStep_ok hstep
      refine ⟨hd :: hs, by simp [hhd, hmap], ?_⟩
      rcases hcase with ⟨ht, _, hnone, hrh2⟩ | ⟨ht, hrh2⟩ | ⟨hns, hnd, hrh2⟩
      · have hS : hd.isStream = true := by simp [Handler.isStream, ht]
        have hD : hd.isData = false := by simp [Handler.isData, ht]
        subst hrh2
        simp only [Option.isSome_some, if_true] at hcount
        have hz : (hs.filter Handler.isStream) = [] := by
          cases hl : hs.filter Handler.isStream with
          | nil => rfl
          | cons a l => rw [hl] at hcount; simp at hcount
        refine ⟨?_, ?_, hres, hmain, ?_, ?_⟩
        · simpa [List.filter_cons, hS, hD] using hreq
        · simpa [List.filter_cons, hD] using hdata
        · simp [List.filter_cons, hS, hz, hnone]
        · simp [List.filter_cons, hS, hnone, hslot]
      · have hS : hd.isStream = false := by simp [Handler.isStream, ht]
        have hD : hd.isData = true := by simp [Handler.isData, ht]
        subst hrh2
        refine ⟨?_, ?_, hres, hmain, ?_, ?_⟩
        · simpa [List.filter_cons, hS, hD] using hreq
        · simpa [List.filter_cons, hD] using hdata
        · simpa [List.filter_cons, hS] using hcount
        · simpa [List.filter_cons, hS] using hslot
      · have hS : hd.isStream = false := by simp [Handler.isStream, hns]
        have hD : hd.isData = false := by simp [Handler.isData, hnd]
        subst hrh2
        refine ⟨?_, ?_, hres, hmain, ?_, ?_⟩
        · simpa [List.filter_cons, hS, hD] using hreq
        · simpa [List.filter_cons, hD] using hdata
        · simpa [List.filter_cons, hS] using hcount
        · simpa [List.filter_cons, hS] using hslot

/-- Resolved handlers of registered names: a name of the list that resolves to
`hd` contributes `hd` to the resolved list. -/
theorem mem_resolved {υ : Type} {handlers : Registry υ} {names : List String}
    {hs : List (Handler υ)} (hmap : names.map handlers = hs.map some) {d : String}
    {hd : Handler υ} (hmem : d ∈ names) (hres : handlers d = some hd) : hd ∈ hs := by
  have h1 : some hd ∈ names.map handlers := hres ▸ List.mem_map_of_mem handlers hmem
  rw [hmap] at h1
  obtain ⟨x, hx, hxe⟩ := List.mem_map.mp h1
  cases hxe
  exact hx

/-- The number of resolved streaming handlers is the number of names that
resolve to a streaming handler. -/
theorem countP_resolved {υ : Type} {handlers : Registry υ} {names : List String}
    {hs : List (Handler υ)} (hmap : names.map handlers = hs.map some) :
    (hs.filter Handler.isStream).length
      = names.countP (fun n => (handlers n).any Handler.isStream) := by
  have h1 : (names.map handlers).countP (fun o => o.any Handler.isStream)
      = (hs.map some).countP (fun o => o.any Handler.isStream) := by rw [hmap]
  rw [List.countP_map, List.countP_map] at h1
  rw [← List.countP_eq_length_filter]
  have h2 : ((fun o : Option (Handler υ) => o.any Handler.isStream) ∘ some)
      = Handler.isStream := by
    funext x; simp [Function.comp]
  rw [h2] at h1
  rw [← h1]
  rfl

/-- A streaming handler that comes after a stored data handler is rejected. -/
theorem afterStep_stream_after_data {υ : Type} (app : AppContext) {handlers : Registry υ}
    (when : Option String) {rh : RouteHandlers υ} {s : String} {hs : Handler υ}
    (hres : handlers s = some hs) (ht : hs.type = some "requestDataStream")
    (hne : rh.reqDataHandlers ≠ []) :
    (∃ msg, afterStep app handlers when rh s = .error (.ApplicationSetupError msg))
      ∧ ((dontHaveBodyAt when && !app.alwaysReadRequestPayload) = false →
          afterStep app handlers when rh s = .error
            (.ApplicationSetupError "MappingError: Request Stream handler should be called before.")) := by
  have hlen : rh.reqDataHandlers.length > 0 := List.length_pos.mpr hne
  unfold afterStep
  simp only [hres, ht, hlen, if_true]
  constructor
  · split
    · exact ⟨_, rfl⟩
    · exact ⟨_, rfl⟩
  · intro hg
    cases hd : dontHaveBodyAt when <;> cases ha : app.alwaysReadRequestPayload <;>
      simp_all

/-- With the payload guard off, a registered handler that is not a data handler
is either stored, leaving the data list empty, or rejected as a second
streaming handler. -/
theorem afterStep_no_data {υ : Type} (app : AppContext) {handlers : Registry υ}
    (when : Option String) {rh : RouteHandlers υ} {n : String} {hd : Handler υ}
    (hg : (dontHaveBodyAt when && !app.alwaysReadRequestPayload) = false)
    (hres : handlers n = some hd) (ht : hd.type ≠ some "requestData")
    (hempty : rh.reqDataHandlers = []) :
    afterStep app handlers when rh n = .error (.ApplicationSetupError
        "MappingError: There is only one request stream handler per mapping allowed.")
      ∨ ∃ rh1, afterStep app handlers when rh n = .ok rh1 ∧ rh1.reqDataHandlers = [] := by
  have hguard : (dontHaveBodyAt when
      && (hd.type == some "requestDataStream" || hd.type == some "requestData")
      && !app.alwaysReadRequestPayload) = false := by
    cases hd1 : dontHaveBodyAt when <;> cases ha : app.alwaysReadRequestPayload <;>
      simp_all
  unfold afterStep
  simp only [hres, hguard]
  by_cases hst : hd.type = some "requestDataStream"
  · by_cases hsome : rh.reqDataStreamHandler.isSome = true
    · left; simp [hst, hsome, hempty]
    · right
      refine ⟨{ rh with reqDataStreamHandler := some hd }, ?_, hempty⟩
      simp [hst, hsome, hempty]
  · right
    refine ⟨{ rh with reqHandlers := rh.reqHandlers ++ [hd] }, ?_, hempty⟩
    simp [hst, ht]

theorem afterLoop_no_data {υ : Type} (app : AppContext) {handlers : Registry υ}
    (when : Option String) {names : List String} {rh : RouteHandlers υ} {e : JSError}
    (hg : (dontHaveBodyAt when && !app.alwaysReadRequestPayload) = false)
    (hreg : ∀ n ∈ names, (handlers n).isSome = true)
    (hnd : ∀ n ∈ names, ∀ h, handlers n = some h → h.type ≠ some "requestData")
    (hempty : rh.reqDataHandlers = [])
    (herr : afterLoop app handlers when names rh = .error e) :
    e = .ApplicationSetupError
      "MappingError: There is only one request stream handler per mapping allowed." := by
  induction names generalizing rh with
  | nil => cases herr
  | cons n ns ih =>
    obtain ⟨hd, hhd⟩ := Option.isSome_iff_exists.mp (hreg n (List.mem_cons_self _ _))
    simp only [afterLoop] at herr
    rcases afterStep_no_data app when hg hhd (hnd n (List.mem_cons_self _ _) hd hhd) hempty
      with hfail | ⟨rh1, hok, hemp1⟩
    · rw [hfail] at herr
      exact (Except.error.inj herr).symm
    · rw [hok] at herr
      exact ih (fun m hm => hreg m (List.mem_cons_of_mem _ hm))
        (fun m hm => hnd m (List.mem_cons_of_mem _ hm)) hemp1 herr

theorem afterLoop_front_error {υ : Type} {app : AppContext} {handlers : Registry υ}
    {when : Option String} {front : List String} {rh : RouteHandlers υ} {e : JSError}
    (back : List String) (h : afterLoop app handlers when front rh = .error e) :
    afterLoop app handlers when (front ++ back) rh = .error e := by
  rw [afterLoop_append, h]

theorem afterLoop_stop {υ : Type} {app : AppContext} {handlers : Registry υ}
    {when : Option String} {front : List String} {rh rh1 : RouteHandlers υ} {e : JSError}
    {s : String} (back : List String) (h : afterLoop app handlers when front rh = .ok rh1)
    (hs : afterStep app handlers when rh1 s = .error e) :
    afterLoop app handlers when (front ++ s :: back) rh = .error e := by
  rw [afterLoop_append, h]
  simp only [afterLoop, hs]

theorem extractHandlersFromRoute_after_error {υ : Type} {app : AppContext}
    {handlers : Registry υ} {route : Route} {names : List String} {e : JSError}
    (hafter : route.after = some names)
    (h : afterLoop app handlers route.when names RouteHandlers.empty = .error e) :
    extractHandlersFromRoute app handlers route = .error e := by
  unfold extractHandlersFromRoute
  rw [hafter]
  simp only [Option.getD, h]

/-- The `after` part alone: a mapping with neither `then` nor `to`. -/
theorem extractHandlersFromRoute_after_part {υ : Type} (app : AppContext)
    (handlers : Registry υ) (route : Route) :
    extractHandlersFromRoute app handlers { route with then_ := none, to_ := none } =
      afterLoop app handlers route.when (route.after.getD []) RouteHandlers.empty := by
  unfold extractHandlersFromRoute
  split
  · rename_i e he
    exact he.symm
  · rename_i rh hrh
    exact hrh.symm

/-- The `after` and `then` parts: a mapping without `to`. -/
theorem extractHandlersFromRoute_without_to {υ : Type} (app : AppContext)
    (handlers : Registry υ) (route : Route) :
    extractHandlersFromRoute app handlers { route with to_ := none } =
      match afterLoop app handlers route.when (route.after.getD []) RouteHandlers.empty with
      | .error e => .error e
      | .ok afterDone => thenLoop handlers (route.then_.getD []) afterDone := by
  unfold extractHandlersFromRoute
  show (match afterLoop app handlers route.when (route.after.getD []) RouteHandlers.empty with
      | .error e => (Except.error e : Except JSError (RouteHandlers υ))
      | .ok afterDone =>
        match thenLoop handlers (route.then_.getD []) afterDone with
        | .error e => Except.error e
        | .ok thenDone => toStep handlers none thenDone) = _
  cases afterLoop app handlers route.when (route.after.getD []) RouteHandlers.empty with
  | error e => rfl
  | ok rh =>
    show (match thenLoop handlers (route.then_.getD []) rh with
        | .error e => (Except.error e : Except JSError (RouteHandlers υ))
        | .ok thenDone => toStep handlers none thenDone)
      = thenLoop handlers (route.then_.getD []) rh
    cases thenLoop handlers (route.then_.getD []) rh with
    | error e => rfl
    | ok rh1 => rfl

/-- The three parts of a successful compilation. -/
theorem extractHandlersFromRoute_ok {υ : Type} {app : AppContext} {handlers : Registry υ}
    {route : Route} {p : RouteHandlers υ}
    (h : extractHandlersFromRoute app handlers route = .ok p) :
    ∃ afterDone thenDone,
      afterLoop app handlers route.when (route.after.getD []) RouteHandlers.empty = .ok afterDone
      ∧ thenLoop handlers (route.then_.getD []) afterDone = .ok thenDone
      ∧ toStep handlers route.to_ thenDone = .ok p := by
  unfold extractHandlersFromRoute at h
  split at h
  · cases h
  · rename_i afterDone h1
    split at h
    · cases h
    · rename_i thenDone h2
      exact ⟨afterDone, thenDone, h1, h2, h⟩

/-- What an accepted step of the `then` loop did. -/
theorem thenStep_ok {υ : Type} {handlers : Registry υ} {rh rh1 : RouteHandlers υ} {n : String}
    (h : thenStep handlers rh n = .ok rh1) :
    ∃ hd, handlers n = some hd ∧ hd.type = some "response"
      ∧ rh1 = { rh with resHandlers := rh.resHandlers ++ [hd] } := by
  unfold thenStep at h
  split at h
  · cases h
  · rename_i hd hhd
    split at h
    · cases h
    · rename_i ht
      exact ⟨hd, hhd, not_not.mp ht, (Except.ok.inj h).symm⟩

/-- What an accepted run of the `then` loop did. -/
theorem thenLoop_ok {υ : Type} {handlers : Registry υ} {names : List String}
    {rh rh1 : RouteHandlers υ} (h : thenLoop handlers names rh = .ok rh1) :
    ∃ ts : List (Handler υ), names.map handlers = ts.map some
      ∧ (∀ t ∈ ts, t.type = some "response")
      ∧ rh1.resHandlers = rh.resHandlers ++ ts
      ∧ rh1.reqHandlers = rh.reqHandlers
      ∧ rh1.reqDataHandlers = rh.reqDataHandlers
      ∧ rh1.reqDataStreamHandler = rh.reqDataStreamHandler
      ∧ rh1.mainHandler = rh.mainHandler := by
  induction names generalizing rh with
  | nil =>
    simp only [thenLoop] at h
    cases h
    exact ⟨[], rfl, by simp, by simp, rfl, rfl, rfl, rfl⟩
  | cons n ns ih =>
    simp only [thenLoop] at h
    cases hstep : thenStep handlers rh n with
    | error e => rw [hstep] at h; cases h
    | ok rh2 =>
      rw [hstep] at h
      obtain ⟨ts, hmap, hall, hres, hreq, hdata, hslot, hmain⟩ := ih h
      obtain ⟨hd, hhd, ht, hrh2⟩ := thenStep_ok hstep
      subst hrh2
      refine ⟨hd :: ts, by simp [hhd, hmap], ?_, ?_, hreq, hdata, hslot, hmain⟩
      · intro t htm
        rcases List.mem_cons.mp htm with rfl | htm
        · exact ht
        · exact hall t htm
      · simpa using hres

/-- Response handlers are accepted by the `then` loop. -/
theorem thenLoop_accepts {υ : Type} {handlers : Registry υ} {names : List String}
    (hall : ∀ n ∈ names, ∃ h, handlers n = some h ∧ h.type = some "response")
    (rh : RouteHandlers υ) : ∃ rh1, thenLoop handlers names rh = .ok rh1 := by
  induction names generalizing rh with
  | nil => exact ⟨rh, rfl⟩
  | cons n ns ih =>
    obtain ⟨hd, hhd, ht⟩ := hall n (List.mem_cons_self _ _)
    obtain ⟨rh1, hrh1⟩ := ih (fun m hm => hall m (List.mem_cons_of_mem _ hm))
      { rh with resHandlers := rh.resHandlers ++ [hd] }
    refine ⟨rh1, ?_⟩
    simp only [thenLoop, thenStep, hhd, ht, ne_eq, not_true_eq_false, if_false]
    exact hrh1

/-- What an accepted `to` block did: the three lists are untouched, a new
occupant of the streaming slot is a streaming handler, and a new main handler is
not one. -/
theorem toStep_ok {υ : Type} {handlers : Registry υ} {to_ : Option String}
    {rh rh1 : RouteHandlers υ} (h : toStep handlers to_ rh = .ok rh1) :
    rh1.reqHandlers = rh.reqHandlers
      ∧ rh1.reqDataHandlers = rh.reqDataHandlers
      ∧ rh1.resHandlers = rh.resHandlers
      ∧ (∀ s, rh1.reqDataStreamHandler = some s →
          rh.reqDataStreamHandler = some s ∨ s.type = some "requestDataStream")
      ∧ (∀ m, rh1.mainHandler = some m →
          rh.mainHandler = some m ∨ m.type ≠ some "requestDataStream") := by
  unfold toStep at h
  split at h
  · cases h
    exact ⟨rfl, rfl, rfl, fun s hs => .inl hs, fun m hm => .inl hm⟩
  · split at h
    · cases h
      exact ⟨rfl, rfl, rfl, fun s hs => .inl hs, fun m hm => .inl hm⟩
    · split at h
      · cases h
      · rename_i hd hhd
        split at h
        · rename_i ht
          split at h
          · cases h
          · cases h
            refine ⟨rfl, rfl, rfl, ?_, ?_⟩
            · intro s hs
              cases hs
              exact .inr ht
            · intro m hm
              cases hm
        · rename_i ht
          cases h
          refine ⟨rfl, rfl, rfl, fun s hs => .inl hs, ?_⟩
          intro m hm
          cases hm
          exact .inr ht

/-- Every handler falls in exactly one of the three classes of the `after`
loop. -/
theorem length_classes {υ : Type} (hs : List (Handler υ)) :
    (hs.filter (fun x => !x.isData && !x.isStream)).length
      + (hs.filter Handler.isData).length + (hs.filter Handler.isStream).length
      = hs.length := by
  induction hs with
  | nil => rfl
  | cons x xs ih =>
    have hexcl : ¬ (x.isData = true ∧ x.isStream = true) := by
      rintro ⟨h1, h2⟩
      simp only [Handler.isData, Handler.isStream, beq_iff_eq] at h1 h2
      rw [h1] at h2
      revert h2
      decide
    cases hD : x.isData <;> cases hS : x.isStream <;>
      simp_all [List.filter_cons] <;> omega

/-- The handler loop stops at the first handler that leaves the answer
answered: it has called the handlers up to and including that one, in order,
and executes `return`. -/
theorem handlerLoop_stops {υ : Type} (event : Nat → Event) (front back : List (Handler υ))
    (h : Handler υ) (i : Nat) (ex ex1 ex2 : Exchange υ) (trace : List Event)
    (hfront : passUnanswered front ex = some ex1)
    (hcall : h.handle .withContext ex1 = .ok ex2) (hans : ex2.answered = true) :
    handlerLoop event (front ++ h :: back) i ex trace
      = .returned ex2 (trace ++ (List.range' i (front.length + 1)).map event) := by
  induction front generalizing i ex trace with
  | nil =>
    simp only [passUnanswered] at hfront
    cases hfront
    simp only [List.nil_append, handlerLoop, hcall, hans, if_true, List.length_nil, zero_add,
      List.range'_one, List.map_cons, List.map_nil]
  | cons g gs ih =>
    simp only [passUnanswered] at hfront
    cases hg : g.handle .withContext ex with
    | throw e exg => rw [hg] at hfront; cases hfront
    | ok exg =>
      rw [hg] at hfront
      simp only [] at hfront
      by_cases hga : exg.answered = true
      · rw [if_pos hga] at hfront; cases hfront
      · rw [if_neg hga] at hfront
        have hstep : handlerLoop event ((g :: gs) ++ h :: back) i ex trace
            = handlerLoop event (gs ++ h :: back) (i + 1) exg (trace ++ [event i]) := by
          show handlerLoop event (g :: (gs ++ h :: back)) i ex trace = _
          simp only [handlerLoop, hg]
          rw [if_neg hga]
        rw [hstep, ih (i + 1) exg (trace ++ [event i]) hfront]
        simp [List.range'_succ]

/-! ## Lemmas on the route callback and the listeners -/

/-- Handlers that all return with the answer unanswered: the loop calls each of
them, in order, and falls through. -/
theorem handlerLoop_pass {υ : Type} (event : Nat → Event) (hs : List (Handler υ)) (i : Nat)
    (ex ex1 : Exchange υ) (trace : List Event) (hpass : passUnanswered hs ex = some ex1) :
    handlerLoop event hs i ex trace
      = .next ex1 (trace ++ (List.range' i hs.length).map event) := by
  induction hs generalizing i ex trace with
  | nil =>
    simp only [passUnanswered] at hpass
    cases hpass
    simp [handlerLoop]
  | cons g gs ih =>
    simp only [passUnanswered] at hpass
    cases hg : g.handle .withContext ex with
    | throw e exg => rw [hg] at hpass; cases hpass
    | ok exg =>
      rw [hg] at hpass
      simp only [] at hpass
      by_cases hga : exg.answered = true
      · rw [if_pos hga] at hpass; cases hpass
      · rw [if_neg hga] at hpass
        simp only [handlerLoop, hg]
        rw [if_neg hga, ih (i + 1) exg (trace ++ [event i]) hpass]
        simp [List.range'_succ]

/-- The handler loop only appends events of its own stage. -/
theorem handlerLoop_trace {υ : Type} (event : Nat → Event) (hs : List (Handler υ)) (i : Nat)
    (ex : Exchange υ) (trace : List Event) :
    ∃ evs, (handlerLoop event hs i ex trace).trace = trace ++ evs
      ∧ ∀ e ∈ evs, ∃ j, e = event j := by
  induction hs generalizing i ex trace with
  | nil => exact ⟨[], by simp [handlerLoop, Flow.trace], by simp⟩
  | cons g gs ih =>
    simp only [handlerLoop]
    cases hg : g.handle .withContext ex with
    | throw e exg =>
      exact ⟨[event i], rfl, by simp⟩
    | ok exg =>
      simp only []
      by_cases hga : exg.answered = true
      · rw [if_pos hga]
        exact ⟨[event i], rfl, by simp⟩
      · rw [if_neg hga]
        obtain ⟨evs, hevs, hall⟩ := ih (i + 1) exg (trace ++ [event i])
        refine ⟨event i :: evs, by rw [hevs]; simp, ?_⟩
        intro e he
        rcases List.mem_cons.mp he with rfl | he
        · exact ⟨i, rfl⟩
        · exact hall e he

/-- The default send only appends `end_` events. -/
theorem defaultSend_trace {υ : Type} (ex : Exchange υ) (trace : List Event) :
    ∃ evs, (defaultSend ex trace).trace = trace ++ evs ∧ ∀ e ∈ evs, ∃ d, e = Event.end_ d := by
  unfold defaultSend
  cases ex.data with
  | undefined => exact ⟨[.end_ .undefined], rfl, by simp⟩
  | string s => exact ⟨[.end_ (.string s)], rfl, by simp⟩
  | buffer b => exact ⟨[.end_ (.buffer b)], rfl, by simp⟩
  | stream n => exact ⟨[], by simp [Flow.trace], by simp⟩
  | other json => exact ⟨[.end_ _], rfl, by simp⟩
  | unserializable err => exact ⟨[], by simp [Flow.trace], by simp⟩

/-- The events of `atEnd`: the call of the main handler when there is one,
followed by calls of response handlers and `end_` events only. -/
theorem atEnd_trace {υ : Type} (rh : RouteHandlers υ) (ex : Exchange υ) (trace : List Event) :
    ∃ rest, (atEnd rh ex trace).trace
        = trace ++ (if rh.mainHandler.isSome then [Event.mainHandler] else []) ++ rest
      ∧ ∀ e ∈ rest, (∃ j, e = Event.resHandler j) ∨ ∃ d, e = Event.end_ d := by
  have tail : ∀ (ex1 : Exchange υ) (trace1 : List Event),
      ∃ rest, (match handlerLoop .resHandler rh.resHandlers 0 ex1 trace1 with
          | .next ex2 trace2 =>
            if !ex2.answered then defaultSend ex2 trace2 else .next ex2 trace2
          | flow => flow).trace = trace1 ++ rest
        ∧ ∀ e ∈ rest, (∃ j, e = Event.resHandler j) ∨ ∃ d, e = Event.end_ d := by
    intro ex1 trace1
    obtain ⟨evs, hevs, hall⟩ := handlerLoop_trace .resHandler rh.resHandlers 0 ex1 trace1
    cases hl : handlerLoop .resHandler rh.resHandlers 0 ex1 trace1 with
    | next ex2 trace2 =>
      rw [hl] at hevs
      simp only [Flow.trace] at hevs
      simp only []
      by_cases ha : ex2.answered = true
      · simp only [ha, Bool.not_true, Bool.false_eq_true, if_false, Flow.trace]
        exact ⟨evs, hevs, fun e he => .inl (hall e he)⟩
      · have ha1 : ex2.answered = false := by simpa using ha
        simp only [ha1, Bool.not_false, if_true]
        obtain ⟨evs2, hevs2, hall2⟩ := defaultSend_trace ex2 trace2
        refine ⟨evs ++ evs2, by rw [hevs2, hevs]; simp, ?_⟩
        intro e he
        rcases List.mem_append.mp he with he | he
        · exact .inl (hall e he)
        · exact .inr (hall2 e he)
    | returned ex2 trace2 =>
      rw [hl] at hevs
      exact ⟨evs, hevs, fun e he => .inl (hall e he)⟩
    | thrown e2 ex2 trace2 =>
      rw [hl] at hevs
      exact ⟨evs, hevs, fun e he => .inl (hall e he)⟩
  unfold atEnd
  cases hm : rh.mainHandler with
  | none =>
    simp only [Option.isSome_none, Bool.false_eq_true, if_false, List.append_nil]
    exact tail ex trace
  | some m =>
    simp only [Option.isSome_some, if_true]
    cases hcall : m.handle .withContext ex with
    | throw e ex1 => exact ⟨[], by simp [Flow.trace], by simp⟩
    | ok ex1 =>
      simp only []
      by_cases ha : ex1.answered = true
      · simp only [ha, if_true]
        exact ⟨[], by simp [Flow.trace], by simp⟩
      · simp only [ha, if_false]
        exact tail ex1 (trace ++ [.mainHandler])

/-- The flag computed by `addRoute` is the condition of the specification. -/
theorem handlerToReadBodyPresents_iff {υ : Type} (rh : RouteHandlers υ) :
    handlerToReadBodyPresents rh = true ↔ needsBody rh := by
  unfold handlerToReadBodyPresents needsBody
  have hlen : (decide (rh.reqDataHandlers.length > 0) = true) ↔ rh.reqDataHandlers ≠ [] := by
    rw [decide_eq_true_iff]
    exact List.length_pos
  have hmain : ((match rh.mainHandler with
        | none => false
        | some mainHandler => mainHandler.type == some "requestData") = true)
      ↔ ∃ m, rh.mainHandler = some m ∧ m.type = some "requestData" := by
    cases rh.mainHandler with
    | none => simp
    | some m => simp
  rw [Bool.or_eq_true, Bool.or_eq_true, hlen, hmain, or_assoc]

/-- What `addRoute` passes to `router.on` when, whatever the router, it ends in
that call: the mapping is not skipped, it compiles, the overflow handler is
registered, and the registration is built from these. -/
theorem addRoute_registration {υ : Type} {profile : Option String} {app : AppContext}
    {handlers : Registry υ} {route : Route} {entry : Registered υ}
    (hadd : ∀ (ρ : Type) (routerOn : RouterOn ρ υ) (router : ρ),
      addRoute routerOn profile app handlers router route = routerOn router entry) :
    skipped profile route = false
      ∧ ∃ rh fatBody, extractHandlersFromRoute app handlers route = .ok rh
          ∧ handlers "__exceedContentLength" = some fatBody
          ∧ entry = { method := whenOrDefault route, uri := route.uri,
                      context := { app := app, route := withDefaults route },
                      routeHandlers := rh,
                      handlerToReadBodyPresents := handlerToReadBodyPresents rh,
                      bigBodyAlert := fatBody.handle } := by
  have h := hadd (List (Registered υ)) recordingOn []
  unfold addRoute recordingOn at h
  split at h
  · have hlen := congrArg (fun p => p.1.length) h
    simp at hlen
  · rename_i hskip
    simp only [] at h
    split at h
    · have hsnd := congrArg Prod.snd h
      simp at hsnd
    · rename_i rh hok
      split at h
      · have hsnd := congrArg Prod.snd h
        simp at hsnd
      · rename_i fatBody hfat
        rw [extractHandlersFromRoute_withDefaults] at hok
        refine ⟨by simpa using hskip, rh, fatBody, hok, hfat, ?_⟩
        have hfst := congrArg Prod.fst h
        simp only [List.nil_append, List.cons.injEq, and_true] at hfst
        exact hfst.symm

/-- The entry that `addRoute` registers carries the flag of its own handlers. -/
theorem addRoute_entry_flag {υ : Type} {profile : Option String} {app : AppContext}
    {handlers : Registry υ} {route : Route} {entry : Registered υ}
    (hadd : ∀ (ρ : Type) (routerOn : RouterOn ρ υ) (router : ρ),
      addRoute routerOn profile app handlers router route = routerOn router entry) :
    entry.handlerToReadBodyPresents = handlerToReadBodyPresents entry.routeHandlers := by
  obtain ⟨-, rh, fatBody, -, -, hentry⟩ := addRoute_registration hadd
  rw [hentry]

/-- The `catch` block only adds the call of the error handler to the trace. -/
theorem routeCallback_trace {υ : Type} (handlers : Registry υ) (entry : Registered υ)
    (ex : Exchange υ) :
    ∃ evs, (routeCallback handlers entry ex).trace = (routeTry entry ex [.onError]).trace ++ evs
      ∧ ∀ e ∈ evs, e = Event.errorHandler := by
  unfold routeCallback
  cases routeTry entry ex [.onError] with
  | next ex1 trace1 => exact ⟨[], by simp [Flow.trace], by simp⟩
  | returned ex1 trace1 => exact ⟨[], by simp [Flow.trace], by simp⟩
  | thrown e ex1 trace1 =>
    simp only []
    cases handlers "__error" with
    | none => exact ⟨[], by simp [Flow.trace], by simp⟩
    | some errorHandler =>
      simp only []
      cases errorHandler.handle .noContext
          { ex1 with error := some e, context := some entry.context } with
      | throw e2 ex3 => exact ⟨[.errorHandler], by simp [Flow.trace], by simp⟩
      | ok ex3 => exact ⟨[.errorHandler], by simp [Flow.trace], by simp⟩

/-- The `try` block when the pre-handlers fall through and the body is not
needed: `atEnd` runs right after the pre-handlers. -/
theorem routeTry_without_body {υ : Type} (entry : Registered υ) (ex ex1 : Exchange υ)
    (trace : List Event)
    (hpre : passUnanswered entry.routeHandlers.reqHandlers ex = some ex1)
    (hflag : entry.handlerToReadBodyPresents = false) :
    routeTry entry ex trace
      = match atEnd entry.routeHandlers ex1
          (trace ++ (List.range entry.routeHandlers.reqHandlers.length).map Event.reqHandler) with
        | .returned ex2 trace2 => .next ex2 trace2
        | flow => flow := by
  unfold routeTry
  rw [handlerLoop_pass Event.reqHandler _ 0 ex ex1 trace hpre]
  simp only [hflag, Bool.false_eq_true, if_false, List.range_eq_range']

/-- The `try` block when the pre-handlers fall through, the body is needed and
the before-hook (if there is one) returns: the `data` and `end` listeners are
attached after the hook, and `atEnd` is not called. -/
theorem routeTry_with_body {υ : Type} (entry : Registered υ) (ex ex1 : Exchange υ)
    (trace : List Event)
    (hpre : passUnanswered entry.routeHandlers.reqHandlers ex = some ex1)
    (hflag : entry.handlerToReadBodyPresents = true)
    (hhook : ∀ s b, entry.routeHandlers.reqDataStreamHandler = some s → s.before = some b →
      ∃ ex2, b ex1 = .ok ex2) :
    ∃ ex2 evs, routeTry entry ex trace
        = .next ex2 (trace
            ++ (List.range entry.routeHandlers.reqHandlers.length).map Event.reqHandler
            ++ evs ++ [.onData, .onEnd])
      ∧ ∀ e ∈ evs, e = Event.streamBefore ∨ e = Event.removeAllListeners := by
  unfold routeTry
  rw [handlerLoop_pass Event.reqHandler _ 0 ex ex1 trace hpre]
  simp only [hflag, if_true, List.range_eq_range']
  cases hs : entry.routeHandlers.reqDataStreamHandler with
  | none => exact ⟨ex1, [], by simp, by simp⟩
  | some sh =>
    cases hb : sh.before with
    | none => exact ⟨ex1, [], by simp [Option.bind, hb], by simp⟩
    | some b =>
      obtain ⟨ex2, hex2⟩ := hhook sh b hs hb
      by_cases ha : ex2.answered = true
      · exact ⟨ex2, [.streamBefore, .removeAllListeners], by simp [Option.bind, hb, hex2, ha],
          by simp⟩
      · exact ⟨ex2, [.streamBefore], by simp [Option.bind, hb, hex2, ha], by simp⟩

theorem delivered_append (xs ys : List Event) :
    delivered (xs ++ ys) = delivered xs ++ delivered ys := by
  induction xs with
  | nil => rfl
  | cons x xs ih => cases x <;> simp [delivered, ih]

/-- One call of the `data` listener: the trace grows by the events `evs` (the
exception that leaves the listener included), the counter does not decrease,
and a chunk is delivered only with the counter below the limit, in which case
the counter grows by the length of the chunk. -/
theorem dataListener_step {υ : Type} (globals : Globals) (entry : Registered υ) (n : Nat)
    (chunk : List Nat) (ex : Exchange υ) (trace : List Event) :
    ∃ evs, (dataListener globals entry n chunk ex trace).1.ended = trace ++ evs
      ∧ n ≤ (dataListener globals entry n chunk ex trace).2
      ∧ (delivered evs = []
          ∨ (delivered evs = [chunk]
              ∧ (dataListener globals entry n chunk ex trace).2 = n + chunk.length
              ∧ ∃ m, globals.routeMaxLength = some m ∧ (n : Int) < m)) := by
  unfold dataListener
  cases hg : globals.routeMaxLength with
  | none => exact ⟨[.uncaught (.ReferenceError "route")], rfl, Nat.le_refl _, .inl rfl⟩
  | some m =>
    simp only []
    by_cases hlt : (n : Int) < m
    · simp only [hlt, if_true]
      cases hs : entry.routeHandlers.reqDataStreamHandler with
      | some sh =>
        simp only []
        cases hc : sh.handle (.chunk chunk) ex with
        | throw e ex1 =>
          exact ⟨[.streamChunk chunk, .uncaught e], by simp [Flow.ended],
            Nat.le_add_right _ _, .inr ⟨rfl, rfl, m, rfl, hlt⟩⟩
        | ok ex1 =>
          exact ⟨[.streamChunk chunk], by simp [Flow.ended],
            Nat.le_add_right _ _, .inr ⟨rfl, rfl, m, rfl, hlt⟩⟩
      | none =>
        simp only []
        cases hr : globals.req with
        | true =>
          exact ⟨[.accumulate chunk], by simp [Flow.ended],
            Nat.le_add_right _ _, .inr ⟨rfl, rfl, m, rfl, hlt⟩⟩
        | false =>
          exact ⟨[.uncaught (.ReferenceError "req")], by simp [Flow.ended],
            Nat.le_add_right _ _, .inl rfl⟩
    · simp only [hlt, if_false]
      cases hb : entry.bigBodyAlert .withContext ex with
      | throw e ex1 =>
        exact ⟨[.bigBodyAlert, .uncaught e], by simp [Flow.ended], Nat.le_refl _, .inl rfl⟩
      | ok ex1 =>
        exact ⟨[.bigBodyAlert], by simp [Flow.ended], Nat.le_refl _, .inl rfl⟩

/-- The `data` listener over a body: every delivered chunk was delivered with
fewer than `routeMaxLength` bytes counted before it, and the counter is at
least the number of bytes delivered. -/
theorem dataLoop_delivered {υ : Type} (globals : Globals) (entry : Registered υ)
    (chunks : List (List Nat)) (n : Nat) (ex : Exchange υ) (trace : List Event) :
    ∃ evs, (dataLoop globals entry chunks n ex trace).2.1 = trace ++ evs
      ∧ ∀ k, k < (delivered evs).length →
          ∃ m, globals.routeMaxLength = some m
            ∧ ((n + bytes ((delivered evs).take k) : Nat) : Int) < m := by
  induction chunks generalizing n ex trace with
  | nil => exact ⟨[], by simp [dataLoop], by simp [delivered]⟩
  | cons chunk rest ih =>
    obtain ⟨evs1, hevs1, hmono, hcase⟩ := dataListener_step globals entry n chunk ex trace
    obtain ⟨evs2, hevs2, hall⟩ := ih (dataListener globals entry n chunk ex trace).2
      (dataListener globals entry n chunk ex trace).1.exchange
      (dataListener globals entry n chunk ex trace).1.ended
    refine ⟨evs1 ++ evs2, ?_, ?_⟩
    · simp only [dataLoop]
      rw [hevs2, hevs1, List.append_assoc]
    · intro k hk
      rw [delivered_append] at hk ⊢
      rcases hcase with hnil | ⟨hone, hcnt, m, hm, hlt⟩
      · rw [hnil, List.nil_append] at hk ⊢
        obtain ⟨m, hm, hb⟩ := hall k hk
        refine ⟨m, hm, ?_⟩
        have : ((n + bytes ((delivered evs2).take k) : Nat) : Int)
            ≤ (((dataListener globals entry n chunk ex trace).2
                + bytes ((delivered evs2).take k) : Nat) : Int) := by
          exact_mod_cast Nat.add_le_add_right hmono _
        omega
      · rw [hone] at hk ⊢
        cases k with
        | zero =>
          refine ⟨m, hm, ?_⟩
          simpa [bytes] using hlt
        | succ k =>
          have hk2 : k < (delivered evs2).length := by simpa using hk
          obtain ⟨m2, hm2, hb⟩ := hall k hk2
          refine ⟨m2, hm2, ?_⟩
          rw [hcnt] at hb
          have hbytes : bytes (([chunk] ++ delivered evs2).take (k + 1))
              = chunk.length + bytes ((delivered evs2).take k) := by
            simp [bytes]
          rw [hbytes]
          have : n + (chunk.length + bytes ((delivered evs2).take k))
              = n + chunk.length + bytes ((delivered evs2).take k) := by omega
          rw [this]
          exact hb

/-- The test of the `data` listener where the identifier `route` resolves: a
chunk is delivered when the bytes delivered before it are fewer than
`route.maxLength`, the length of the chunk not being part of the test. -/
theorem readRequestBody_test_before_add {υ : Type} (globals : Globals)
    (entry : Registered υ) (chunks : List (List Nat)) (ex : Exchange υ) (trace : List Event) :
    ∃ evs, (readRequestBody globals entry chunks ex trace).2.1 = trace ++ evs
      ∧ (∀ k, k < (delivered evs).length →
          ∃ maxLength, globals.routeMaxLength = some maxLength
            ∧ (bytes ((delivered evs).take k) : Int) < maxLength)
      ∧ (∀ last, (delivered evs).getLast? = some last →
          ∃ maxLength, globals.routeMaxLength = some maxLength
            ∧ (bytes (delivered evs) : Int) < maxLength + last.length) := by
  obtain ⟨evs, hevs, hall⟩ := dataLoop_delivered globals entry chunks 0 ex trace
  have hall0 : ∀ k, k < (delivered evs).length →
      ∃ maxLength, globals.routeMaxLength = some maxLength
        ∧ (bytes ((delivered evs).take k) : Int) < maxLength := by
    intro k hk
    obtain ⟨m, hm, hb⟩ := hall k hk
    exact ⟨m, hm, by simpa using hb⟩
  refine ⟨evs, hevs, hall0, ?_⟩
  intro last hlast
  have hD : (delivered evs).dropLast ++ [last] = delivered evs :=
    List.dropLast_append_getLast? last hlast
  have hk : (delivered evs).dropLast.length < (delivered evs).length := by
    rw [← hD]
    simp
  obtain ⟨m, hm, hb⟩ := hall0 _ hk
  refine ⟨m, hm, ?_⟩
  have htake : (delivered evs).take (delivered evs).dropLast.length = (delivered evs).dropLast := by
    conv_lhs => rw [← hD]
    simp
  rw [htake] at hb
  have hsum : bytes (delivered evs) = bytes (delivered evs).dropLast + last.length := by
    conv_lhs => rw [← hD]
    simp [bytes]
  rw [hsum]
  push_cast
  omega

/-- As the sources stand, the `data` listener ends in the ReferenceError for
`route` on every chunk, from every value of the counter. -/
theorem dataLoop_unbound_route {υ : Type} (entry : Registered υ) (chunks : List (List Nat))
    (n : Nat) (ex : Exchange υ) (trace : List Event) :
    dataLoop Globals.asShipped entry chunks n ex trace
      = (ex, trace ++ chunks.map (fun _ => Event.uncaught (.ReferenceError "route")), n) := by
  induction chunks generalizing trace with
  | nil => simp [dataLoop]
  | cons chunk rest ih =>
    have hstep : dataListener Globals.asShipped entry n chunk ex trace
        = (.thrown (.ReferenceError "route") ex trace, n) := rfl
    simp only [dataLoop, hstep, Flow.exchange, Flow.ended]
    rw [ih]
    simp

/-- Exceptions that leave a listener deliver nothing. -/
theorem delivered_uncaught {α : Type} (xs : List α) (e : JSError) :
    delivered (xs.map (fun _ => Event.uncaught e)) = [] := by
  induction xs with
  | nil => rfl
  | cons x rest ih => simpa [delivered] using ih

/-! ## Lemmas on the runner and on `addRoute` -/

/-- The calls of `callAll`: the hooks from the first one on, in order, up to the
first that throws; all of them when `callAll` returns. -/
theorem callAll_calls {υ : Type} (call : Nat → RunnerCall) (name : String)
    (hooks : List (Hook υ)) (i : Nat) (ex : Exchange υ) (calls : List RunnerCall) :
    ∃ k, k ≤ hooks.length
      ∧ (callAll call name hooks i ex calls).2 = calls ++ (List.range' i k).map call
      ∧ ((∃ ex1, (callAll call name hooks i ex calls).1 = .ok ex1) → k = hooks.length) := by
  induction hooks generalizing i ex calls with
  | nil => exact ⟨0, Nat.le_refl _, by simp [callAll], fun _ => rfl⟩
  | cons hook rest ih =>
    simp only [callAll]
    cases hh : hook name ex with
    | throw e ex1 =>
      refine ⟨1, by simp, by simp, ?_⟩
      rintro ⟨ex2, h2⟩
      cases h2
    | ok ex1 =>
      obtain ⟨k, hk, hcalls, hall⟩ := ih (i + 1) ex1 (calls ++ [call i])
      refine ⟨k + 1, by simpa using hk, ?_, ?_⟩
      · simp only []
        rw [hcalls]
        simp [List.range'_succ]
      · intro hok
        simp only [] at hok
        rw [hall hok]
        rfl

/-- Splitting the index range of a hook list at `k`. -/
theorem range_map_split (call : Nat → RunnerCall) (k n : Nat) (hk : k ≤ n) :
    (List.range n).map call
      = (List.range' 0 k).map call ++ (List.range' k (n - k)).map call := by
  rw [List.range_eq_range', ← List.map_append]
  congr 1
  have := List.range'_append 0 k (n - k) 1
  simp only [Nat.one_mul, Nat.zero_add] at this
  rw [this]
  congr 1
  omega

/-- The hooks that a runner kept, for a handler that is not marked
`inParallel`. -/
theorem nonEmptyArray_length {υ : Type} (hooks : Option (List (Hook υ))) :
    ((nonEmptyArray hooks).getD []).length = (hooks.getD []).length := by
  unfold nonEmptyArray
  cases hooks with
  | none => rfl
  | some l =>
    cases l with
    | nil => rfl
    | cons a l => simp

/-- A skipped mapping is returned from before anything is looked up. -/
theorem addRoute_skipped {ρ υ : Type} (routerOn : RouterOn ρ υ) (profile : Option String)
    (app : AppContext) (handlers : Registry υ) (router : ρ) (route : Route)
    (hskip : skipped profile route = true) :
    addRoute routerOn profile app handlers router route = (router, none) := by
  unfold addRoute
  simp [hskip]

/-- A mapping that is not skipped and does not compile leaves the router as it
was, whatever `router.on` would do: the error is thrown before the call. -/
theorem addRoute_compile_error {ρ υ : Type} (routerOn : RouterOn ρ υ)
    (profile : Option String) (app : AppContext) (handlers : Registry υ) (router : ρ)
    (route : Route) (e : JSError)
    (hskip : skipped profile route = false)
    (herr : extractHandlersFromRoute app handlers route = .error e) :
    addRoute routerOn profile app handlers router route = (router, some e) := by
  unfold addRoute
  simp only [hskip, extractHandlersFromRoute_withDefaults, herr]
  rfl

/-- A mapping that is not skipped and compiles is passed to `router.on`, given
the overflow handler; the outcome of `addRoute` is the outcome of that call. -/
theorem addRoute_registers {ρ υ : Type} (routerOn : RouterOn ρ υ) (profile : Option String)
    (app : AppContext) (handlers : Registry υ) (router : ρ) (route : Route)
    (rh : RouteHandlers υ) (fatBody : Handler υ)
    (hskip : skipped profile route = false)
    (hok : extractHandlersFromRoute app handlers route = .ok rh)
    (hfat : handlers "__exceedContentLength" = some fatBody) :
    addRoute routerOn profile app handlers router route
      = routerOn router { method := whenOrDefault route, uri := route.uri,
                          context := { app := app, route := withDefaults route },
                          routeHandlers := rh,
                          handlerToReadBodyPresents := handlerToReadBodyPresents rh,
                          bigBodyAlert := fatBody.handle } := by
  unfold addRoute
  simp only [hskip, extractHandlersFromRoute_withDefaults, hok, hfat]
  rfl

/-- The method and the mapping of the entry that `addRoute` registers. -/
theorem addRoute_entry {υ : Type} {profile : Option String} {app : AppContext}
    {handlers : Registry υ} {route : Route} {entry : Registered υ}
    (hadd : ∀ (ρ : Type) (routerOn : RouterOn ρ υ) (router : ρ),
      addRoute routerOn profile app handlers router route = routerOn router entry) :
    entry.method = whenOrDefault route ∧ entry.context.route = withDefaults route := by
  obtain ⟨-, rh, fatBody, -, -, hentry⟩ := addRoute_registration hadd
  rw [hentry]
  exact ⟨rfl, rfl⟩

/-- The calls of `runBefore` on a runner built by the constructor: before-hooks
from the first one on, up to the first that throws. -/
theorem runBefore_calls {υ : Type} (name : String) (handler : Handler υ)
    (before after : Option (List (Hook υ))) (ex : Exchange υ) (calls : List RunnerCall) :
    ∃ k, k ≤ hookCount handler before
      ∧ ((Runner.create name handler before after).runBefore ex calls).2
          = calls ++ (List.range' 0 k).map (fun i => RunnerCall.before i name)
      ∧ ((∃ ex1, ((Runner.create name handler before after).runBefore ex calls).1 = .ok ex1) →
          k = hookCount handler before) := by
  unfold Runner.runBefore Runner.create hookCount
  cases hp : handler.inParallel with
  | true => exact ⟨0, by simp, by simp, fun _ => by simp⟩
  | false =>
    simp only [Bool.not_false, if_true, Bool.false_eq_true, if_false]
    have hlen := nonEmptyArray_length before
    cases hn : nonEmptyArray before with
    | none =>
      rw [hn] at hlen
      exact ⟨0, by simp, by simp, fun _ => by simpa using hlen⟩
    | some hooks =>
      rw [hn] at hlen
      simp only [Option.getD_some] at hlen
      obtain ⟨k, hk, hcalls, hall⟩ :=
        callAll_calls (fun i => RunnerCall.before i name) name hooks 0 ex calls
      exact ⟨k, hlen ▸ hk, hcalls, fun h => hlen ▸ hall h⟩

/-- The calls of `runAfter` on a runner built by the constructor: after-hooks
from the first one on, up to the first that throws. -/
theorem runAfter_calls {υ : Type} (name : String) (handler : Handler υ)
    (before after : Option (List (Hook υ))) (ex : Exchange υ) (calls : List RunnerCall) :
    ∃ k, k ≤ hookCount handler after
      ∧ ((Runner.create name handler before after).runAfter ex calls).2
          = calls ++ (List.range' 0 k).map (fun i => RunnerCall.after i name)
      ∧ ((∃ ex1, ((Runner.create name handler before after).runAfter ex calls).1 = .ok ex1) →
          k = hookCount handler after) := by
  unfold Runner.runAfter Runner.create hookCount
  cases hp : handler.inParallel with
  | true => exact ⟨0, by simp, by simp, fun _ => by simp⟩
  | false =>
    simp only [Bool.not_false, if_true, Bool.false_eq_true, if_false]
    have hlen := nonEmptyArray_length after
    cases hn : nonEmptyArray after with
    | none =>
      rw [hn] at hlen
      exact ⟨0, by simp, by simp, fun _ => by simpa using hlen⟩
    | some hooks =>
      rw [hn] at hlen
      simp only [Option.getD_some] at hlen
      obtain ⟨k, hk, hcalls, hall⟩ :=
        callAll_calls (fun i => RunnerCall.after i name) name hooks 0 ex calls
      exact ⟨k, hlen ▸ hk, hcalls, fun h => hlen ▸ hall h⟩

/-! ## Claims -/

/-- C1 (amended): if a name `x` of the `after` list is not registered and the
names before it are registered and accepted, `extractHandlersFromRoute` fails
with the ApplicationSetupError "Unregistered handler " followed by `x`, and so
does `addRoute` on every mapping that its environment filter does not skip. -/
theorem extractHandlersFromRoute_unregistered_after {υ : Type} (app : AppContext)
    (handlers : Registry υ) (route : Route) (front : List String) (x : String)
    (back : List String) (accepted : RouteHandlers υ)
    (hafter : route.after = some (front ++ x :: back))
    (hfront : extractHandlersFromRoute app handlers
        { route with after := some front, then_ := none, to_ := none } = .ok accepted)
    (hx : handlers x = none) :
    extractHandlersFromRoute app handlers route
        = .error (.ApplicationSetupError ("Unregistered handler " ++ x))
      ∧ ∀ (ρ : Type) (routerOn : RouterOn ρ υ) (profile : Option String) (router : ρ),
          skipped profile route = false →
          addRoute routerOn profile app handlers router route
            = (router, some (.ApplicationSetupError ("Unregistered handler " ++ x))) := by
  rw [extractHandlersFromRoute_after_only] at hfront
  have hfail : extractHandlersFromRoute app handlers route
      = .error (.ApplicationSetupError ("Unregistered handler " ++ x)) := by
    unfold extractHandlersFromRoute
    rw [hafter]
    simp only [Option.getD, afterLoop_append, hfront, afterLoop, afterStep, hx]
  refine ⟨hfail, ?_⟩
  intro ρ routerOn profile router hskip
  unfold addRoute
  simp only [hskip, extractHandlersFromRoute_withDefaults, hfail]
  rfl

/-- Witness of C1 on the container of the unit tests: `after = [auth, unknown]`,
compiled directly and added, with no environment set, to a router that accepts
every registration. -/
theorem extractHandlersFromRoute_unregistered_after_witness :
    extractHandlersFromRoute defaultOptions testHandlers
        { bareRoute with after := some ["auth", "unknown"] }
        = .error (.ApplicationSetupError "Unregistered handler unknown")
      ∧ addRoute recordingOn none defaultOptions testHandlers []
          { bareRoute with after := some ["auth", "unknown"] }
        = ([], some (.ApplicationSetupError "Unregistered handler unknown")) :=
  ⟨(extractHandlersFromRoute_unregistered_after defaultOptions testHandlers
      { bareRoute with after := some ["auth", "unknown"] } ["auth"] "unknown" []
      { RouteHandlers.empty with reqHandlers := [testHandler "auth" (some "request")] }
      rfl rfl rfl).1,
   (extractHandlersFromRoute_unregistered_after defaultOptions testHandlers
      { bareRoute with after := some ["auth", "unknown"] } ["auth"] "unknown" []
      { RouteHandlers.empty with reqHandlers := [testHandler "auth" (some "request")] }
      rfl rfl rfl).2 (List (Registered Unit)) recordingOn none [] rfl⟩

/-- Counterexample to C1 as stated: a mapping for the environment `dev` that
names an unregistered handler fails in `extractHandlersFromRoute`, but
`addRoute` under the environment `test` skips it and returns without an error. -/
theorem addRoute_skipped_unregistered_counterexample :
    extractHandlersFromRoute defaultOptions testHandlers
        { bareRoute with in_ := some ["dev"], after := some ["unknown"] }
        = .error (.ApplicationSetupError "Unregistered handler unknown")
      ∧ addRoute recordingOn (some "test") defaultOptions testHandlers []
        { bareRoute with in_ := some ["dev"], after := some ["unknown"] } = ([], none) :=
  ⟨rfl, rfl⟩

/-- C2: the code at the failing input.  With `to` naming a handler that is not
registered, `extractHandlersFromRoute` ends in the TypeError of reading `type`
of `undefined`, not in an ApplicationSetupError; the same name in `after` or in
`then` gives the ApplicationSetupError "Unregistered handler missing". -/
theorem extractHandlersFromRoute_unregistered_to :
    extractHandlersFromRoute defaultOptions testHandlers { bareRoute with to_ := some "missing" }
        = .error (.TypeError "type")
      ∧ extractHandlersFromRoute defaultOptions testHandlers
          { bareRoute with after := some ["missing"] }
        = .error (.ApplicationSetupError "Unregistered handler missing")
      ∧ extractHandlersFromRoute defaultOptions testHandlers
          { bareRoute with then_ := some ["missing"] }
        = .error (.ApplicationSetupError "Unregistered handler missing") :=
  ⟨rfl, rfl, rfl⟩

/-- C3 (amended): a mapping whose `after` list holds two streaming handlers
(`s1` and, later, `s2`) always fails with an ApplicationSetupError; the message
is "MappingError: There is only one request stream handler per mapping allowed."
when the names before `s2` are registered, none of them resolves to a data
handler, and the payload guard is off. -/
theorem extractHandlersFromRoute_two_stream_handlers {υ : Type} (app : AppContext)
    (handlers : Registry υ) (route : Route) (a b c : List String) (s1 s2 : String)
    (h1 h2 : Handler υ)
    (hafter : route.after = some (a ++ s1 :: (b ++ s2 :: c)))
    (hs1 : handlers s1 = some h1) (ht1 : h1.type = some "requestDataStream")
    (hs2 : handlers s2 = some h2) (ht2 : h2.type = some "requestDataStream") :
    (∃ msg, extractHandlersFromRoute app handlers route = .error (.ApplicationSetupError msg))
      ∧ ((dontHaveBodyAt route.when && !app.alwaysReadRequestPayload) = false →
          (∀ n ∈ a ++ s1 :: b, (handlers n).isSome = true) →
          (∀ n ∈ a ++ s1 :: b, ∀ h, handlers n = some h → h.type ≠ some "requestData") →
          extractHandlersFromRoute app handlers route = .error (.ApplicationSetupError
            "MappingError: There is only one request stream handler per mapping allowed.")) := by
  have hsplit : a ++ s1 :: (b ++ s2 :: c) = (a ++ s1 :: b ++ [s2]) ++ c := by simp
  -- the loop cannot get past `s2`
  have hstop : ∃ e, afterLoop app handlers route.when (a ++ s1 :: b ++ [s2]) RouteHandlers.empty
      = .error e := by
    cases hrun : afterLoop app handlers route.when (a ++ s1 :: b ++ [s2]) RouteHandlers.empty with
    | error e => exact ⟨e, rfl⟩
    | ok rh1 =>
      exfalso
      obtain ⟨hs, hmap, -, -, -, -, hcount, -⟩ := afterLoop_ok hrun
      rw [countP_resolved hmap] at hcount
      have hS1 : (handlers s1).any Handler.isStream = true := by
        simp [hs1, Handler.isStream, ht1]
      have hS2 : (handlers s2).any Handler.isStream = true := by
        simp [hs2, Handler.isStream, ht2]
      simp only [List.countP_append, List.countP_cons, List.countP_nil, hS1, hS2, if_true]
        at hcount
      omega
  obtain ⟨e, he⟩ := hstop
  have hext : extractHandlersFromRoute app handlers route = .error e := by
    unfold extractHandlersFromRoute
    rw [hafter]
    simp only [Option.getD, hsplit]
    rw [afterLoop_append, he]
  refine ⟨?_, ?_⟩
  · obtain ⟨msg, hmsg⟩ := afterLoop_error he
    exact ⟨msg, by rw [hext, hmsg]⟩
  · intro hg hreg hnd
    rw [hext]
    have hreg2 : ∀ n ∈ a ++ s1 :: b ++ [s2], (handlers n).isSome = true := by
      intro n hn
      rcases List.mem_append.mp hn with hn | hn
      · exact hreg n hn
      · rw [List.mem_singleton.mp hn, hs2]; rfl
    have hnd2 : ∀ n ∈ a ++ s1 :: b ++ [s2], ∀ h, handlers n = some h →
        h.type ≠ some "requestData" := by
      intro n hn h hh
      rcases List.mem_append.mp hn with hn | hn
      · exact hnd n hn h hh
      · rw [List.mem_singleton.mp hn, hs2] at hh
        cases hh
        rw [ht2]; decide
    rw [afterLoop_no_data app route.when hg hreg2 hnd2 rfl he]

/-- Witness of C3: the mapping `after = [stream, stream]` of the unit tests. -/
theorem extractHandlersFromRoute_two_stream_handlers_witness :
    (∃ msg, extractHandlersFromRoute defaultOptions testHandlers
        { bareRoute with after := some ["stream", "stream"] }
        = .error (.ApplicationSetupError msg))
      ∧ extractHandlersFromRoute defaultOptions testHandlers
          { bareRoute with after := some ["stream", "stream"] }
        = .error (.ApplicationSetupError
            "MappingError: There is only one request stream handler per mapping allowed.") :=
  ⟨(extractHandlersFromRoute_two_stream_handlers defaultOptions testHandlers
      { bareRoute with after := some ["stream", "stream"] } [] [] [] "stream" "stream"
      (testHandler "stream" (some "requestDataStream"))
      (testHandler "stream" (some "requestDataStream")) rfl rfl rfl rfl rfl).1,
   (extractHandlersFromRoute_two_stream_handlers defaultOptions testHandlers
      { bareRoute with after := some ["stream", "stream"] } [] [] [] "stream" "stream"
      (testHandler "stream" (some "requestDataStream"))
      (testHandler "stream" (some "requestDataStream")) rfl rfl rfl rfl rfl).2 rfl
      (fun n hn => by rw [List.mem_singleton.mp hn]; rfl)
      (fun n hn h hh => by
        rw [List.mem_singleton.mp hn] at hh
        cases hh
        decide)⟩

/-- Counterexample to C3 as stated: with `after = [stream, main, stream]`, all
registered and two of them streaming handlers, the error is the one about the
order of stream and data handlers, not the one about a second stream handler. -/
theorem extractHandlersFromRoute_two_stream_handlers_counterexample :
    extractHandlersFromRoute defaultOptions testHandlers
        { bareRoute with after := some ["stream", "main", "stream"] }
        = .error (.ApplicationSetupError
            "MappingError: Request Stream handler should be called before.")
      ∧ extractHandlersFromRoute defaultOptions testHandlers
        { bareRoute with after := some ["stream", "main", "stream"] }
        ≠ .error (.ApplicationSetupError
            "MappingError: There is only one request stream handler per mapping allowed.") := by
  have hval : extractHandlersFromRoute defaultOptions testHandlers
        { bareRoute with after := some ["stream", "main", "stream"] }
        = .error (.ApplicationSetupError
            "MappingError: Request Stream handler should be called before.") := rfl
  refine ⟨hval, ?_⟩
  rw [hval]
  intro h
  injection h with h
  injection h with h
  revert h
  decide

/-- C4 (amended): a mapping in whose `after` list a streaming handler `s` comes
after a data handler `d` always fails with an ApplicationSetupError, so no
pipeline is returned; the message is "MappingError: Request Stream handler
should be called before." when the names before `s` are accepted and the
payload guard is off. -/
theorem extractHandlersFromRoute_stream_after_data {υ : Type} (app : AppContext)
    (handlers : Registry υ) (route : Route) (front back : List String) (d s : String)
    (hd hs : Handler υ)
    (hafter : route.after = some (front ++ s :: back))
    (hmem : d ∈ front) (hdres : handlers d = some hd) (hdt : hd.type = some "requestData")
    (hsres : handlers s = some hs) (hst : hs.type = some "requestDataStream") :
    (∃ msg, extractHandlersFromRoute app handlers route = .error (.ApplicationSetupError msg))
      ∧ ((dontHaveBodyAt route.when && !app.alwaysReadRequestPayload) = false →
          (∃ accepted, extractHandlersFromRoute app handlers
            { route with after := some front, then_ := none, to_ := none } = .ok accepted) →
          extractHandlersFromRoute app handlers route = .error (.ApplicationSetupError
            "MappingError: Request Stream handler should be called before.")) := by
  have hstep : ∀ rh1, afterLoop app handlers route.when front RouteHandlers.empty = .ok rh1 →
      rh1.reqDataHandlers ≠ [] := by
    intro rh1 hrun
    obtain ⟨hl, hmap, -, hdata, -, -, -, -⟩ := afterLoop_ok hrun
    have hin : hd ∈ hl.filter Handler.isData :=
      List.mem_filter.mpr ⟨mem_resolved hmap hmem hdres, by simp [Handler.isData, hdt]⟩
    rw [hdata]
    intro hnil
    rw [show RouteHandlers.empty.reqDataHandlers = ([] : List (Handler υ)) from rfl,
      List.nil_append] at hnil
    rw [hnil] at hin
    cases hin
  refine ⟨?_, ?_⟩
  · cases hrun : afterLoop app handlers route.when front RouteHandlers.empty with
    | error e =>
      obtain ⟨msg, hmsg⟩ := afterLoop_error hrun
      refine ⟨msg, ?_⟩
      rw [← hmsg]
      exact extractHandlersFromRoute_after_error hafter (afterLoop_front_error _ hrun)
    | ok rh1 =>
      obtain ⟨msg, hmsg⟩ :=
        (afterStep_stream_after_data app route.when hsres hst (hstep rh1 hrun)).1
      exact ⟨msg, extractHandlersFromRoute_after_error hafter (afterLoop_stop back hrun hmsg)⟩
  · rintro hg ⟨accepted, hacc⟩
    rw [extractHandlersFromRoute_after_only] at hacc
    exact extractHandlersFromRoute_after_error hafter (afterLoop_stop back hacc
      ((afterStep_stream_after_data app route.when hsres hst (hstep accepted hacc)).2 hg))

/-- Witness of C4: `after = [main, stream]` on the container of the unit tests. -/
theorem extractHandlersFromRoute_stream_after_data_witness :
    (∃ msg, extractHandlersFromRoute defaultOptions testHandlers
        { bareRoute with after := some ["main", "stream"] }
        = .error (.ApplicationSetupError msg))
      ∧ extractHandlersFromRoute defaultOptions testHandlers
          { bareRoute with after := some ["main", "stream"] }
        = .error (.ApplicationSetupError
            "MappingError: Request Stream handler should be called before.") :=
  ⟨(extractHandlersFromRoute_stream_after_data defaultOptions testHandlers
      { bareRoute with after := some ["main", "stream"] } ["main"] [] "main" "stream"
      (testHandler "main" (some "requestData"))
      (testHandler "stream" (some "requestDataStream"))
      rfl (List.mem_singleton.mpr rfl) rfl rfl rfl rfl).1,
   (extractHandlersFromRoute_stream_after_data defaultOptions testHandlers
      { bareRoute with after := some ["main", "stream"] } ["main"] [] "main" "stream"
      (testHandler "main" (some "requestData"))
      (testHandler "stream" (some "requestDataStream"))
      rfl (List.mem_singleton.mpr rfl) rfl rfl rfl rfl).2 rfl
      ⟨{ RouteHandlers.empty with reqDataHandlers := [testHandler "main" (some "requestData")] },
        rfl⟩⟩

/-- Counterexample to C4 as stated: in `after = [stream, stream, main, stream]`
the last streaming handler comes after the data handler `main` and all names
are registered, but the error is the one about a second stream handler. -/
theorem extractHandlersFromRoute_stream_after_data_counterexample :
    extractHandlersFromRoute defaultOptions testHandlers
        { bareRoute with after := some ["stream", "stream", "main", "stream"] }
        = .error (.ApplicationSetupError
            "MappingError: There is only one request stream handler per mapping allowed.")
      ∧ extractHandlersFromRoute defaultOptions testHandlers
        { bareRoute with after := some ["stream", "stream", "main", "stream"] }
        ≠ .error (.ApplicationSetupError
            "MappingError: Request Stream handler should be called before.") := by
  have hval : extractHandlersFromRoute defaultOptions testHandlers
        { bareRoute with after := some ["stream", "stream", "main", "stream"] }
        = .error (.ApplicationSetupError
            "MappingError: There is only one request stream handler per mapping allowed.") := rfl
  refine ⟨hval, ?_⟩
  rw [hval]
  intro h
  injection h with h
  injection h with h
  revert h
  decide

/-- C5: the code at the failing input.  For the methods GET and HEAD the member
access `dontHaveBody[route.when]` is falsy, so with `alwaysReadRequestPayload`
false a GET mapping and a HEAD mapping with the data handler `main`, and a GET
mapping with the streaming handler `stream`, are all accepted. -/
theorem extractHandlersFromRoute_get_with_data_handler :
    defaultOptions.alwaysReadRequestPayload = false
      ∧ dontHaveBodyAt (some "GET") = false ∧ dontHaveBodyAt (some "HEAD") = false
      ∧ extractHandlersFromRoute defaultOptions testHandlers
          { bareRoute with when := some "GET", after := some ["main"] }
        = .ok { RouteHandlers.empty with
                reqDataHandlers := [testHandler "main" (some "requestData")] }
      ∧ extractHandlersFromRoute defaultOptions testHandlers
          { bareRoute with when := some "HEAD", after := some ["main"] }
        = .ok { RouteHandlers.empty with
                reqDataHandlers := [testHandler "main" (some "requestData")] }
      ∧ extractHandlersFromRoute defaultOptions testHandlers
          { bareRoute with when := some "GET", after := some ["stream"] }
        = .ok { RouteHandlers.empty with
                reqDataStreamHandler := some (testHandler "stream" (some "requestDataStream")) } :=
  ⟨rfl, rfl, rfl, rfl, rfl, rfl⟩

/-- C6: with a valid `after` list and the names of `then` before `x` all
registered response handlers, a registered `x` of any other type (or of no type)
makes `extractHandlersFromRoute` fail with the ApplicationSetupError "Ah! wrong
place for x. Only response handlers are allowed here.", and an unregistered `x`
with "Unregistered handler x". -/
theorem extractHandlersFromRoute_then_rejected {υ : Type} (app : AppContext)
    (handlers : Registry υ) (route : Route) (front : List String) (x : String)
    (back : List String) (afterDone : RouteHandlers υ)
    (hthen : route.then_ = some (front ++ x :: back))
    (hvalid : extractHandlersFromRoute app handlers { route with then_ := none, to_ := none }
      = .ok afterDone)
    (hfront : ∀ n ∈ front, ∃ h, handlers n = some h ∧ h.type = some "response") :
    (∀ h, handlers x = some h → h.type ≠ some "response" →
        extractHandlersFromRoute app handlers route = .error (.ApplicationSetupError
          ("Ah! wrong place for " ++ x ++ ". Only response handlers are allowed here.")))
      ∧ (handlers x = none →
        extractHandlersFromRoute app handlers route
          = .error (.ApplicationSetupError ("Unregistered handler " ++ x))) := by
  rw [extractHandlersFromRoute_after_part] at hvalid
  obtain ⟨rh1, hrh1⟩ := thenLoop_accepts hfront afterDone
  have key : ∀ e, thenStep handlers rh1 x = .error e →
      extractHandlersFromRoute app handlers route = .error e := by
    intro e he
    unfold extractHandlersFromRoute
    rw [hvalid, hthen]
    simp only [Option.getD, thenLoop_append, hrh1, thenLoop, he]
  constructor
  · intro h hh ht
    apply key
    simp only [thenStep, hh, ht, ne_eq, not_false_eq_true, if_true]
  · intro hnone
    apply key
    simp only [thenStep, hnone]

/-- Witness of C6: `then = [post, auth]` names the request handler `auth`, and
`then = [post, unknown]` names an unregistered handler. -/
theorem extractHandlersFromRoute_then_rejected_witness :
    extractHandlersFromRoute defaultOptions testHandlers
        { bareRoute with after := some ["auth"], then_ := some ["post", "auth"] }
        = .error (.ApplicationSetupError
            "Ah! wrong place for auth. Only response handlers are allowed here.")
      ∧ extractHandlersFromRoute defaultOptions testHandlers
        { bareRoute with after := some ["auth"], then_ := some ["post", "unknown"] }
        = .error (.ApplicationSetupError "Unregistered handler unknown") :=
  ⟨(extractHandlersFromRoute_then_rejected defaultOptions testHandlers
      { bareRoute with after := some ["auth"], then_ := some ["post", "auth"] }
      ["post"] "auth" []
      { RouteHandlers.empty with reqHandlers := [testHandler "auth" (some "request")] }
      rfl rfl
      (fun n hn => ⟨testHandler "post" (some "response"),
        by rw [List.mem_singleton.mp hn]; rfl, rfl⟩)).1
      (testHandler "auth" (some "request")) rfl (by decide),
   (extractHandlersFromRoute_then_rejected defaultOptions testHandlers
      { bareRoute with after := some ["auth"], then_ := some ["post", "unknown"] }
      ["post"] "unknown" []
      { RouteHandlers.empty with reqHandlers := [testHandler "auth" (some "request")] }
      rfl rfl
      (fun n hn => ⟨testHandler "post" (some "response"),
        by rw [List.mem_singleton.mp hn]; rfl, rfl⟩)).2 rfl⟩

/-- C7 (amended): with valid `after` and `then` (compiled to `p0`) and a
non-empty `to` that resolves to the registered handler `H`: a streaming `H` goes
into an empty streaming slot and leaves `mainHandler` undefined; a streaming `H`
with the slot already taken fails with the "only one request stream handler"
ApplicationSetupError; any other `H` becomes `mainHandler` and the streaming
slot stays what `after` produced. -/
theorem extractHandlersFromRoute_to {υ : Type} (app : AppContext) (handlers : Registry υ)
    (route : Route) (t : String) (H : Handler υ) (p0 : RouteHandlers υ)
    (hto : route.to_ = some t) (hne : t ≠ "") (hH : handlers t = some H)
    (hvalid : extractHandlersFromRoute app handlers { route with to_ := none } = .ok p0) :
    (H.type = some "requestDataStream" → p0.reqDataStreamHandler = none →
        extractHandlersFromRoute app handlers route
          = .ok { p0 with reqDataStreamHandler := some H, mainHandler := none })
      ∧ (H.type = some "requestDataStream" → p0.reqDataStreamHandler.isSome = true →
        extractHandlersFromRoute app handlers route = .error (.ApplicationSetupError
          "MappingError: There is only one request stream handler per mapping allowed."))
      ∧ (H.type ≠ some "requestDataStream" →
        extractHandlersFromRoute app handlers route = .ok { p0 with mainHandler := some H }) := by
  obtain ⟨afterDone, thenDone, hA, hT, hS⟩ := extractHandlersFromRoute_ok hvalid
  have hp0 : thenDone = p0 := by
    have : toStep handlers none thenDone = .ok p0 := hS
    simp only [toStep] at this
    exact Except.ok.inj this
  subst hp0
  have hext : extractHandlersFromRoute app handlers route = toStep handlers (some t) thenDone := by
    unfold extractHandlersFromRoute
    rw [hto]
    have hA1 : afterLoop app handlers route.when (route.after.getD []) RouteHandlers.empty
        = .ok afterDone := hA
    have hT1 : thenLoop handlers (route.then_.getD []) afterDone = .ok thenDone := hT
    rw [hA1]
    simp only [hT1]
  rw [hext]
  refine ⟨?_, ?_, ?_⟩
  · intro ht hslot
    simp [toStep, hne, hH, ht, hslot]
  · intro ht hslot
    simp [toStep, hne, hH, ht, hslot]
  · intro ht
    simp [toStep, hne, hH, ht]

/-- Witness of C7: `to = stream` fills the streaming slot, `to = stream` after
`after = [stream]` is rejected, and `to = main` becomes the main handler. -/
theorem extractHandlersFromRoute_to_witness :
    extractHandlersFromRoute defaultOptions testHandlers
        { bareRoute with after := some ["auth"], to_ := some "stream" }
        = .ok { reqHandlers := [testHandler "auth" (some "request")],
                reqDataStreamHandler := some (testHandler "stream" (some "requestDataStream")),
                reqDataHandlers := [], resHandlers := [], mainHandler := none }
      ∧ extractHandlersFromRoute defaultOptions testHandlers
        { bareRoute with after := some ["stream"], to_ := some "stream" }
        = .error (.ApplicationSetupError
            "MappingError: There is only one request stream handler per mapping allowed.")
      ∧ extractHandlersFromRoute defaultOptions testHandlers
        { bareRoute with after := some ["stream"], to_ := some "main" }
        = .ok { reqHandlers := [],
                reqDataStreamHandler := some (testHandler "stream" (some "requestDataStream")),
                reqDataHandlers := [], resHandlers := [],
                mainHandler := some (testHandler "main" (some "requestData")) } :=
  ⟨(extractHandlersFromRoute_to defaultOptions testHandlers
      { bareRoute with after := some ["auth"], to_ := some "stream" } "stream"
      (testHandler "stream" (some "requestDataStream"))
      { RouteHandlers.empty with reqHandlers := [testHandler "auth" (some "request")] }
      rfl (by decide) rfl rfl).1 rfl rfl,
   (extractHandlersFromRoute_to defaultOptions testHandlers
      { bareRoute with after := some ["stream"], to_ := some "stream" } "stream"
      (testHandler "stream" (some "requestDataStream"))
      { RouteHandlers.empty with
        reqDataStreamHandler := some (testHandler "stream" (some "requestDataStream")) }
      rfl (by decide) rfl rfl).2.1 rfl rfl,
   (extractHandlersFromRoute_to defaultOptions testHandlers
      { bareRoute with after := some ["stream"], to_ := some "main" } "main"
      (testHandler "main" (some "requestData"))
      { RouteHandlers.empty with
        reqDataStreamHandler := some (testHandler "stream" (some "requestDataStream")) }
      rfl (by decide) rfl rfl).2.2 (by decide)⟩

/-- Counterexample to C7 as stated: the empty string is a falsy `to`.  With a
handler of type "request" registered under the empty name and `to = ""`, the
`to` block is skipped and `mainHandler` stays undefined. -/
theorem extractHandlersFromRoute_to_counterexample :
    emptyNameHandlers "" = some (testHandler "" (some "request"))
      ∧ (testHandler "" (some "request")).type ≠ some "requestDataStream"
      ∧ extractHandlersFromRoute defaultOptions emptyNameHandlers
          { bareRoute with to_ := none } = .ok RouteHandlers.empty
      ∧ extractHandlersFromRoute defaultOptions emptyNameHandlers
          { bareRoute with to_ := some "" } = .ok RouteHandlers.empty
      ∧ (RouteHandlers.empty : RouteHandlers Unit).mainHandler = none :=
  ⟨rfl, by decide, rfl, rfl, rfl⟩

/-- C8: a successful `extractHandlersFromRoute` partitions its inputs in order.
With `hs` the handlers that the names of `after` resolve to and `ts` those of
`then`: `reqDataHandlers` is the sub-list of `hs` of type "requestData",
`reqHandlers` the sub-list of type neither "requestData" nor
"requestDataStream", `resHandlers` is `ts`, at most one handler of `hs` is a
streaming handler, and the three classes add up to the length of `after`. -/
theorem extractHandlersFromRoute_partition {υ : Type} (app : AppContext)
    (handlers : Registry υ) (route : Route) (p : RouteHandlers υ)
    (h : extractHandlersFromRoute app handlers route = .ok p) :
    ∃ hs ts : List (Handler υ),
      (route.after.getD []).map handlers = hs.map some
      ∧ (route.then_.getD []).map handlers = ts.map some
      ∧ p.reqDataHandlers = hs.filter (fun x => x.type == some "requestData")
      ∧ p.reqHandlers = hs.filter
          (fun x => !(x.type == some "requestData") && !(x.type == some "requestDataStream"))
      ∧ p.resHandlers = ts
      ∧ (hs.filter (fun x => x.type == some "requestDataStream")).length ≤ 1
      ∧ p.reqHandlers.length + p.reqDataHandlers.length
          + (hs.filter (fun x => x.type == some "requestDataStream")).length
          = (route.after.getD []).length := by
  obtain ⟨afterDone, thenDone, hA, hT, hS⟩ := extractHandlersFromRoute_ok h
  obtain ⟨hs, hmap, hreq, hdata, hres, -, hcount, -⟩ := afterLoop_ok hA
  obtain ⟨ts, htmap, -, htres, htreq, htdata, -, -⟩ := thenLoop_ok hT
  obtain ⟨hsreq, hsdata, hsres, -, -⟩ := toStep_ok hS
  have hlen : hs.length = (route.after.getD []).length := by
    have := congrArg List.length hmap
    simpa using this.symm
  have e1 : p.reqDataHandlers = hs.filter Handler.isData := by
    rw [hsdata, htdata, hdata]; rfl
  have e2 : p.reqHandlers = hs.filter (fun x => !x.isData && !x.isStream) := by
    rw [hsreq, htreq, hreq]; rfl
  have e3 : p.resHandlers = ts := by
    rw [hsres, htres, hres]; rfl
  refine ⟨hs, ts, hmap, htmap, e1, e2, e3, ?_, ?_⟩
  · exact Nat.le_of_add_right_le hcount
  · rw [e1, e2, ← hlen]
    exact length_classes hs

/-- Witness of C8: `after = [auth, stream, main, parallel]`, `then = [post]`. -/
theorem extractHandlersFromRoute_partition_witness :
    ∃ hs ts : List (Handler Unit),
      ["auth", "stream", "main", "parallel"].map testHandlers = hs.map some
      ∧ ["post"].map testHandlers = ts.map some
      ∧ [testHandler "main" (some "requestData")]
          = hs.filter (fun x => x.type == some "requestData")
      ∧ [testHandler "auth" (some "request"), testHandler "parallel" none] = hs.filter
          (fun x => !(x.type == some "requestData") && !(x.type == some "requestDataStream"))
      ∧ [testHandler "post" (some "response")] = ts
      ∧ (hs.filter (fun x => x.type == some "requestDataStream")).length ≤ 1
      ∧ 2 + 1 + (hs.filter (fun x => x.type == some "requestDataStream")).length = 4 :=
  extractHandlersFromRoute_partition defaultOptions testHandlers
    { bareRoute with after := some ["auth", "stream", "main", "parallel"],
                     then_ := some ["post"] }
    { reqHandlers := [testHandler "auth" (some "request"), testHandler "parallel" none],
      reqDataStreamHandler := some (testHandler "stream" (some "requestDataStream")),
      reqDataHandlers := [testHandler "main" (some "requestData")],
      resHandlers := [testHandler "post" (some "response")],
      mainHandler := none }
    rfl

/-- C9 (amended): every pipeline returned by `extractHandlersFromRoute` is typed
as the code classifies: no element of `reqHandlers` is of type "requestData" or
"requestDataStream", the streaming slot holds a handler of type
"requestDataStream", every element of `reqDataHandlers` is of type
"requestData", every element of `resHandlers` of type "response", and
`mainHandler` is never of type "requestDataStream". -/
theorem extractHandlersFromRoute_well_typed {υ : Type} (app : AppContext)
    (handlers : Registry υ) (route : Route) (p : RouteHandlers υ)
    (h : extractHandlersFromRoute app handlers route = .ok p) :
    (∀ x ∈ p.reqHandlers, x.type ≠ some "requestData" ∧ x.type ≠ some "requestDataStream")
      ∧ (∀ s, p.reqDataStreamHandler = some s → s.type = some "requestDataStream")
      ∧ (∀ x ∈ p.reqDataHandlers, x.type = some "requestData")
      ∧ (∀ x ∈ p.resHandlers, x.type = some "response")
      ∧ (∀ m, p.mainHandler = some m → m.type ≠ some "requestDataStream") := by
  obtain ⟨afterDone, thenDone, hA, hT, hS⟩ := extractHandlersFromRoute_ok h
  obtain ⟨hs, -, hreq, hdata, hres, hmain, -, hslot⟩ := afterLoop_ok hA
  obtain ⟨ts, -, hall, htres, htreq, htdata, htslot, htmain⟩ := thenLoop_ok hT
  obtain ⟨hsreq, hsdata, hsres, hsslot, hsmain⟩ := toStep_ok hS
  refine ⟨?_, ?_, ?_, ?_, ?_⟩
  · intro x hx
    rw [hsreq, htreq, hreq] at hx
    have hx1 : x ∈ hs.filter (fun x => !x.isData && !x.isStream) := by
      simpa [RouteHandlers.empty] using hx
    have hx2 := (List.mem_filter.mp hx1).2
    simp only [Handler.isData, Handler.isStream, Bool.and_eq_true, Bool.not_eq_true',
      beq_eq_false_iff_ne, ne_eq] at hx2
    exact hx2
  · intro s hsome
    rcases hsslot s hsome with hold | hnew
    · rw [htslot, hslot] at hold
      have hhead : (hs.filter Handler.isStream).head? = some s := hold
      have hmem : s ∈ hs.filter Handler.isStream := List.mem_of_mem_head? hhead
      have := (List.mem_filter.mp hmem).2
      simpa [Handler.isStream] using this
    · exact hnew
  · intro x hx
    rw [hsdata, htdata, hdata] at hx
    have hx1 : x ∈ hs.filter Handler.isData := by
      simpa [RouteHandlers.empty] using hx
    have := (List.mem_filter.mp hx1).2
    simpa [Handler.isData] using this
  · intro x hx
    rw [hsres, htres, hres] at hx
    have hx1 : x ∈ ts := by simpa [RouteHandlers.empty] using hx
    exact hall x hx1
  · intro m hm
    rcases hsmain m hm with hold | hnew
    · rw [htmain, hmain] at hold
      cases hold
    · exact hnew

/-- Witness of C9: the pipeline of `after = [auth, stream, main]`,
`then = [post]`, `to = main`. -/
theorem extractHandlersFromRoute_well_typed_witness :
    (∀ x ∈ [testHandler "auth" (some "request")],
        x.type ≠ some "requestData" ∧ x.type ≠ some "requestDataStream")
      ∧ (∀ s, some (testHandler "stream" (some "requestDataStream")) = some s →
          s.type = some "requestDataStream")
      ∧ (∀ x ∈ [testHandler "main" (some "requestData")], x.type = some "requestData")
      ∧ (∀ x ∈ [testHandler "post" (some "response")], x.type = some "response")
      ∧ (∀ m, some (testHandler "main" (some "requestData")) = some m →
          m.type ≠ some "requestDataStream") :=
  extractHandlersFromRoute_well_typed defaultOptions testHandlers
    { bareRoute with after := some ["auth", "stream", "main"], then_ := some ["post"],
                     to_ := some "main" }
    { reqHandlers := [testHandler "auth" (some "request")],
      reqDataStreamHandler := some (testHandler "stream" (some "requestDataStream")),
      reqDataHandlers := [testHandler "main" (some "requestData")],
      resHandlers := [testHandler "post" (some "response")],
      mainHandler := some (testHandler "main" (some "requestData")) }
    rfl

/-- Counterexample to C9 as stated: the `after` loop puts every handler that is
neither a data nor a streaming handler into `reqHandlers`, whatever its type.
With `after = [post]` the response handler `post` is an element of
`reqHandlers`, and it is not of kind PlainRequest. -/
theorem extractHandlersFromRoute_well_typed_counterexample :
    extractHandlersFromRoute defaultOptions testHandlers { bareRoute with after := some ["post"] }
        = .ok { RouteHandlers.empty with reqHandlers := [testHandler "post" (some "response")] }
      ∧ (testHandler "post" (some "response")).isPlainRequest = false :=
  ⟨rfl, by decide⟩

/-- C10: the route callback calls the pre-handlers in array order and stops at
the first one that returns leaving the answer answered.  When the pre-handlers
before `h` all return with the answer unanswered and `h` returns with it
answered, the callback executes `return` right after `h`: besides attaching the
error listener it has called exactly the pre-handlers up to and including `h`,
in order; no listener for body chunks or end-of-stream is attached, and no
streaming hook, main handler, response handler, default send or error handler
is run. -/
theorem routeCallback_stops_at_answering_reqHandler {υ : Type} (handlers : Registry υ)
    (entry : Registered υ) (ex ex1 ex2 : Exchange υ) (front back : List (Handler υ))
    (h : Handler υ)
    (hlist : entry.routeHandlers.reqHandlers = front ++ h :: back)
    (hfront : passUnanswered front ex = some ex1)
    (hcall : h.handle .withContext ex1 = .ok ex2) (hans : ex2.answered = true) :
    routeCallback handlers entry ex
      = .returned ex2 (.onError :: (List.range (front.length + 1)).map Event.reqHandler) := by
  unfold routeCallback routeTry
  rw [hlist, handlerLoop_stops Event.reqHandler front back h 0 ex ex1 ex2 [.onError]
    hfront hcall hans]
  simp [List.range_eq_range']

/-- Witness of C10: of the pre-handlers `auth`, `deny`, `parallel` the second
answers; the callback calls `auth` and `deny` and returns. -/
theorem routeCallback_stops_at_answering_reqHandler_witness :
    routeCallback testHandlers answeringRoute freshExchange
      = .returned { freshExchange with answered := true }
          [.onError, .reqHandler 0, .reqHandler 1] :=
  routeCallback_stops_at_answering_reqHandler testHandlers answeringRoute freshExchange
    freshExchange { freshExchange with answered := true }
    [testHandler "auth" (some "request")] [testHandler "parallel" none]
    (answeringHandler "deny" (some "request")) rfl rfl rfl rfl

/-- C11: the code at the failing input.  On the route `hookedRoute` the
before-hook of the streaming handler answers.  The callback removes the
listeners but does not return: it attaches the `end` listener, and at
end-of-stream the listener reaches `atEnd`, which calls the main handler `echo`
without a test of the answer.  The main handler is invoked although the answer
is already answered at that moment.  Same defect as C15. -/
theorem atEnd_mainHandler_when_answered :
    routeCallback appHandlers hookedRoute arrayBodyExchange
        = .next { arrayBodyExchange with answered := true }
            [.onError, .reqHandler 0, .streamBefore, .removeAllListeners, .onData, .onEnd]
      ∧ endListener hookedRoute { arrayBodyExchange with answered := true }
          [.onError, .reqHandler 0, .streamBefore, .removeAllListeners, .onData, .onEnd]
        = .returned { arrayBodyExchange with answered := true }
            [.onError, .reqHandler 0, .streamBefore, .removeAllListeners, .onData, .onEnd,
             .mainHandler]
      ∧ atEnd hookedRoute.routeHandlers { arrayBodyExchange with answered := true } []
        = .returned { arrayBodyExchange with answered := true } [.mainHandler] :=
  ⟨rfl, rfl, rfl⟩

/-- C12: when `atEnd` runs the response stage (there is no main handler, or the
main handler returned leaving the answer unanswered), the response handlers are
called in list order after the main handler, up to and including the first one
`h` that returns leaving the answer answered; then `atEnd` returns: no later
response handler is called and the default send is not performed. -/
theorem atEnd_resHandlers_stop {υ : Type} (rh : RouteHandlers υ) (ex ex0 ex1 ex2 : Exchange υ)
    (trace evs : List Event) (front back : List (Handler υ)) (h : Handler υ)
    (hmain : (rh.mainHandler = none ∧ ex0 = ex ∧ evs = [])
      ∨ (∃ m, rh.mainHandler = some m ∧ m.handle .withContext ex = .ok ex0
          ∧ ex0.answered = false ∧ evs = [Event.mainHandler]))
    (hlist : rh.resHandlers = front ++ h :: back)
    (hfront : passUnanswered front ex0 = some ex1)
    (hcall : h.handle .withContext ex1 = .ok ex2) (hans : ex2.answered = true) :
    atEnd rh ex trace
      = .returned ex2
          (trace ++ evs ++ (List.range (front.length + 1)).map Event.resHandler) := by
  unfold atEnd
  rcases hmain with ⟨hnone, hex, hevs⟩ | ⟨m, hsome, hm, hun, hevs⟩
  · subst hex hevs
    simp only [hnone, hlist]
    rw [handlerLoop_stops Event.resHandler front back h 0 ex0 ex1 ex2 trace hfront hcall hans]
    simp [List.range_eq_range']
  · subst hevs
    simp only [hsome, hm, hun, hlist, Bool.false_eq_true, if_false]
    rw [handlerLoop_stops Event.resHandler front back h 0 ex0 ex1 ex2 (trace ++ [Event.mainHandler])
      hfront hcall hans]
    simp [List.range_eq_range']

/-- Witness of C12: after the main handler `main`, of the response handlers
`post`, `deny`, `late` the second answers. -/
theorem atEnd_resHandlers_stop_witness :
    atEnd (respondingHandlers (some (testHandler "main" (some "requestData"))))
        freshExchange [.onError]
      = .returned { freshExchange with answered := true }
          [.onError, .mainHandler, .resHandler 0, .resHandler 1] :=
  atEnd_resHandlers_stop (respondingHandlers (some (testHandler "main" (some "requestData"))))
    freshExchange freshExchange freshExchange { freshExchange with answered := true }
    [.onError] [.mainHandler] [testHandler "post" (some "response")]
    [testHandler "late" (some "response")] (answeringHandler "deny" (some "response"))
    (.inr ⟨testHandler "main" (some "requestData"), rfl, rfl, rfl, rfl⟩) rfl rfl rfl rfl

/-- C14 (amended): for a route registered by `addRoute`, on a request whose
pre-handlers all return leaving the answer unanswered (and whose before-hook, if
there is one, returns leaving it unanswered): the flag that gates body reading
is `needsBody`, the callback attaches the `data` listener and the `end` listener
if and only if `needsBody` holds, and when it does not hold `atEnd` runs right
after the pre-handlers. -/
theorem routeCallback_reads_body_iff {υ : Type} (profile : Option String) (app : AppContext)
    (handlers : Registry υ) (route : Route) (entry : Registered υ) (ex ex1 : Exchange υ)
    (hadd : ∀ (ρ : Type) (routerOn : RouterOn ρ υ) (router : ρ),
      addRoute routerOn profile app handlers router route = routerOn router entry)
    (hpre : passUnanswered entry.routeHandlers.reqHandlers ex = some ex1)
    (hhook : ∀ s b, entry.routeHandlers.reqDataStreamHandler = some s → s.before = some b →
      ∃ ex2, b ex1 = .ok ex2 ∧ ex2.answered = false) :
    (entry.handlerToReadBodyPresents = true ↔ needsBody entry.routeHandlers)
      ∧ (Event.onData ∈ (routeCallback handlers entry ex).trace ↔ needsBody entry.routeHandlers)
      ∧ (Event.onEnd ∈ (routeCallback handlers entry ex).trace ↔ needsBody entry.routeHandlers)
      ∧ (¬ needsBody entry.routeHandlers →
          routeTry entry ex [.onError]
            = match atEnd entry.routeHandlers ex1
                ([.onError]
                  ++ (List.range entry.routeHandlers.reqHandlers.length).map Event.reqHandler) with
              | .returned ex2 trace2 => .next ex2 trace2
              | flow => flow) := by
  have hiff : entry.handlerToReadBodyPresents = true ↔ needsBody entry.routeHandlers := by
    rw [addRoute_entry_flag hadd]
    exact handlerToReadBodyPresents_iff _
  by_cases hn : needsBody entry.routeHandlers
  · have hflag := hiff.mpr hn
    obtain ⟨ex2, evs, htry, -⟩ := routeTry_with_body entry ex ex1 [.onError] hpre hflag
      (fun s b hs hb => (hhook s b hs hb).imp (fun _ h => h.1))
    have hcb : routeCallback handlers entry ex = routeTry entry ex [.onError] := by
      unfold routeCallback
      rw [htry]
    refine ⟨hiff, ?_, ?_, fun h => absurd hn h⟩
    · rw [hcb, htry]
      simp [Flow.trace, hn]
    · rw [hcb, htry]
      simp [Flow.trace, hn]
  · have hflag : entry.handlerToReadBodyPresents = false := by
      cases hf : entry.handlerToReadBodyPresents with
      | false => rfl
      | true => exact absurd (hiff.mp hf) hn
    have htry := routeTry_without_body entry ex ex1 [.onError] hpre hflag
    obtain ⟨evs, hevs, hall⟩ := routeCallback_trace handlers entry ex
    obtain ⟨rest, hrest, hrall⟩ := atEnd_trace entry.routeHandlers ex1
      ([.onError] ++ (List.range entry.routeHandlers.reqHandlers.length).map Event.reqHandler)
    have htrace : (routeTry entry ex [.onError]).trace
        = (atEnd entry.routeHandlers ex1 ([.onError]
            ++ (List.range entry.routeHandlers.reqHandlers.length).map Event.reqHandler)).trace := by
      rw [htry]
      cases atEnd entry.routeHandlers ex1 ([.onError]
          ++ (List.range entry.routeHandlers.reqHandlers.length).map Event.reqHandler) <;> rfl
    have hno : ∀ e, (e = Event.onData ∨ e = Event.onEnd) →
        e ∉ (routeCallback handlers entry ex).trace := by
      intro e he hmem
      rw [hevs, htrace, hrest] at hmem
      simp only [List.mem_append, List.mem_cons, List.mem_map, List.not_mem_nil, or_false]
        at hmem
      rcases hmem with ((((h1 | ⟨j, -, h2⟩) | h3) | h4) | h5)
      · rcases he with rfl | rfl <;> cases h1
      · rcases he with rfl | rfl <;> cases h2
      · split at h3
        · rcases List.mem_singleton.mp h3 with rfl
          rcases he with he | he <;> cases he
        · cases h3
      · rcases hrall e h4 with ⟨j, rfl⟩ | ⟨d, rfl⟩ <;> rcases he with he | he <;> cases he
      · rw [hall e h5] at he
        rcases he with he | he <;> cases he
    refine ⟨hiff, ?_, ?_, fun _ => htry⟩
    · exact ⟨fun h => absurd h (hno _ (.inl rfl)), fun h => absurd h hn⟩
    · exact ⟨fun h => absurd h (hno _ (.inr rfl)), fun h => absurd h hn⟩

/-- Witness of C14: the route `{when: POST, after: [auth, upload], to: parallel}`
registered with the container `uploadHandlers`; `upload` is a streaming handler
whose before-hook returns leaving the answer unanswered. -/
theorem routeCallback_reads_body_iff_witness :
    (registeredUploadRoute.handlerToReadBodyPresents = true
        ↔ needsBody registeredUploadRoute.routeHandlers)
      ∧ (Event.onData ∈ (routeCallback uploadHandlers registeredUploadRoute freshExchange).trace
        ↔ needsBody registeredUploadRoute.routeHandlers)
      ∧ (Event.onEnd ∈ (routeCallback uploadHandlers registeredUploadRoute freshExchange).trace
        ↔ needsBody registeredUploadRoute.routeHandlers)
      ∧ (¬ needsBody registeredUploadRoute.routeHandlers →
          routeTry registeredUploadRoute freshExchange [.onError]
            = match atEnd registeredUploadRoute.routeHandlers freshExchange
                ([.onError]
                  ++ (List.range registeredUploadRoute.routeHandlers.reqHandlers.length).map
                      Event.reqHandler) with
              | .returned ex2 trace2 => .next ex2 trace2
              | flow => flow) :=
  routeCallback_reads_body_iff none defaultOptions uploadHandlers uploadRoute
    registeredUploadRoute freshExchange freshExchange (fun _ _ _ => rfl) rfl
    (fun s b hs hb => by
      have hs1 : some uploadHandler = some s := hs
      cases hs1
      have hb1 : some (fun ex : Exchange Unit => Result.ok ex) = some b := hb
      cases hb1
      exact ⟨freshExchange, rfl, rfl⟩)

/-- Counterexample to C14 as stated: the mapping `{when: POST, after: [deny,
main]}` compiles to a pipeline with the buffered-data handler `main`, so the
pipeline needs the body; the pre-handler `deny` answers, the callback returns
right after it, and neither the `data` listener nor the `end` listener is
attached. -/
theorem routeCallback_reads_body_iff_counterexample :
    addRoute recordingOn none defaultOptions guardedHandlers [] deniedRoute
        = ([registeredDeniedRoute], none)
      ∧ needsBody registeredDeniedRoute.routeHandlers
      ∧ routeCallback guardedHandlers registeredDeniedRoute freshExchange
        = .returned { freshExchange with answered := true } [.onError, .reqHandler 0]
      ∧ Event.onData ∉ (routeCallback guardedHandlers registeredDeniedRoute freshExchange).trace
      ∧ Event.onEnd ∉ (routeCallback guardedHandlers registeredDeniedRoute freshExchange).trace :=
  ⟨rfl, .inr (.inl (List.cons_ne_nil _ _)), rfl, by decide, by decide⟩

/-- C16 (amended): for every `maxLength` that is not negative, every route and
every sequence of chunks fed to `readRequestBody`, a chunk is delivered (to the
streaming handler or to the fallback accumulator) only if the bytes delivered
before it plus its own length are at most `maxLength`; hence the bytes delivered
in total do not exceed `maxLength`.  As the sources stand the bound is met with
nothing delivered, which the last part records: the listener throws on `route`
before it comes to its test. -/
theorem readRequestBody_within_limit {υ : Type} (entry : Registered υ) (maxLength : Int)
    (chunks : List (List Nat)) (ex : Exchange υ) (trace : List Event)
    (hnonneg : 0 ≤ maxLength) :
    ∃ evs, (readRequestBody Globals.asShipped entry chunks ex trace).2.1 = trace ++ evs
      ∧ (∀ k chunk, (delivered evs)[k]? = some chunk →
          (bytes ((delivered evs).take k) : Int) + chunk.length ≤ maxLength)
      ∧ (bytes (delivered evs) : Int) ≤ maxLength
      ∧ delivered evs = [] := by
  refine ⟨chunks.map (fun _ => Event.uncaught (.ReferenceError "route")), ?_, ?_, ?_,
    delivered_uncaught _ _⟩
  · unfold readRequestBody
    rw [dataLoop_unbound_route]
  · intro k chunk hk
    rw [delivered_uncaught] at hk
    simp at hk
  · rw [delivered_uncaught]
    simpa [bytes] using hnonneg

/-- Witness of C16: the route `registeredDataRoute`, whose cap is the default
1,000,000, and the chunks `[1, 2]` and `[3]`. -/
theorem readRequestBody_within_limit_witness :
    registeredDataRoute.context.route.maxLength = some 1000000
      ∧ ∃ evs, (readRequestBody Globals.asShipped registeredDataRoute [[1, 2], [3]]
            freshExchange []).2.1 = [] ++ evs
          ∧ (∀ k chunk, (delivered evs)[k]? = some chunk →
              (bytes ((delivered evs).take k) : Int) + chunk.length ≤ 1000000)
          ∧ (bytes (delivered evs) : Int) ≤ 1000000
          ∧ delivered evs = [] :=
  ⟨rfl, readRequestBody_within_limit registeredDataRoute 1000000 [[1, 2], [3]] freshExchange []
    (by decide)⟩

/-- Counterexample to C16 as stated: the mapping `{when: POST, maxLength: -1,
after: [stream]}` is registered with the cap -1, which `route.maxLength || 1e6`
keeps.  Fed the chunk `[1, 2]`, `readRequestBody` delivers nothing, and the 0
bytes delivered in total exceed the cap. -/
theorem readRequestBody_within_limit_counterexample :
    addRoute recordingOn none defaultOptions appHandlers [] cappedRoute
        = ([registeredCappedRoute], none)
      ∧ registeredCappedRoute.context.route.maxLength = some (-1)
      ∧ readRequestBody Globals.asShipped registeredCappedRoute [[1, 2]] freshExchange []
        = (freshExchange, [.uncaught (.ReferenceError "route")], 0)
      ∧ delivered [Event.uncaught (.ReferenceError "route")] = []
      ∧ ¬ ((bytes (delivered [Event.uncaught (.ReferenceError "route")]) : Int) ≤ -1) :=
  ⟨rfl, rfl, rfl, rfl, by decide⟩

/-- C13: the code at the failing input.  On the route `{after: [readJson], to:
echo}` nothing stores the chunks on `asked.body`.  When `asked.body` is
undefined at end-of-stream, the `end` listener throws in
`Buffer.concat(asked.body)` before any data handler is called; when it is an
array, `asked.body || ...` keeps it, and `readJson` and `echo` are called, in
this order, with the array the request started with and not with the
accumulated body. -/
theorem endListener_body_not_accumulated :
    readRequestBody Globals.asShipped recordingRoute [[1, 2], [3]]
        (recordingExchange .undefined) [.onError, .onData, .onEnd]
      = (recordingExchange .undefined,
          [.onError, .onData, .onEnd, .uncaught (.ReferenceError "route"),
           .uncaught (.ReferenceError "route")], 0)
      ∧ endListener recordingRoute (recordingExchange .undefined) [.onError, .onData, .onEnd]
        = .thrown (.TypeError "list") (recordingExchange .undefined) [.onError, .onData, .onEnd]
      ∧ endListener recordingRoute (recordingExchange (.chunks [])) [.onError, .onData, .onEnd]
        = .next { recordingExchange (.chunks []) with user := [.chunks [], .chunks []] }
            [.onError, .onData, .onEnd, .reqDataHandler 0, .mainHandler, .end_ .undefined] :=
  ⟨rfl, rfl, rfl⟩

/-- C15: the code at the failing input.  On a route whose streaming handler has
a before-hook that answers, the callback removes the listeners and then still
calls `readRequestBody` and attaches the `end` listener.  At end-of-stream the
after-hook is called when there is one, and the first data handler when there
is none. -/
theorem routeCallback_before_hook_answers :
    routeCallback appHandlers (hookedDataRoute (some (fun ex => .ok ex))) arrayBodyExchange
        = .next { arrayBodyExchange with answered := true }
            [.onError, .streamBefore, .removeAllListeners, .onData, .onEnd]
      ∧ endListener (hookedDataRoute (some (fun ex => .ok ex)))
          { arrayBodyExchange with answered := true }
          [.onError, .streamBefore, .removeAllListeners, .onData, .onEnd]
        = .returned { arrayBodyExchange with answered := true }
            [.onError, .streamBefore, .removeAllListeners, .onData, .onEnd, .streamAfter]
      ∧ routeCallback appHandlers (hookedDataRoute none) arrayBodyExchange
        = .next { arrayBodyExchange with answered := true }
            [.onError, .streamBefore, .removeAllListeners, .onData, .onEnd]
      ∧ endListener (hookedDataRoute none) { arrayBodyExchange with answered := true }
          [.onError, .streamBefore, .removeAllListeners, .onData, .onEnd]
        = .returned { arrayBodyExchange with answered := true }
            [.onError, .streamBefore, .removeAllListeners, .onData, .onEnd,
             .reqDataHandler 0] :=
  ⟨rfl, rfl, rfl, rfl⟩

/-- C17: the code at the failing input, which is every input.  With the global
object as the sources leave it, the evaluation of `route` throws in the `data`
listener for each chunk: no chunk is passed to the streaming handler or pushed
by the fallback, the overflow handler is not called, and the counter stays at
0. -/
theorem readRequestBody_as_shipped {υ : Type} (entry : Registered υ)
    (chunks : List (List Nat)) (ex : Exchange υ) (trace : List Event) :
    readRequestBody Globals.asShipped entry chunks ex trace
      = (ex, trace ++ chunks.map (fun _ => Event.uncaught (.ReferenceError "route")), 0) := by
  unfold readRequestBody
  induction chunks generalizing trace with
  | nil => simp [dataLoop]
  | cons chunk rest ih =>
    have hstep : dataListener Globals.asShipped entry 0 chunk ex trace
        = (.thrown (.ReferenceError "route") ex trace, 0) := rfl
    simp only [dataLoop, hstep, Flow.exchange, Flow.ended]
    rw [ih]
    simp

/-- C18: the code at the failing input.  On the route `{after: [readJson], to:
echo}` without a streaming handler, the chunks `[1, 2]` and `[3]` (3 bytes) leave
`asked.body` as it was: as shipped each chunk ends in the ReferenceError for
`route`; with `route` and `req` bound on the global object the fallback pushes
the chunks to `req.body`, not to `asked.body`.  At end-of-stream the data
handler and the main handler both see the empty array the request started with,
not the buffer `[1, 2, 3]`. -/
theorem readRequestBody_body_not_concatenated :
    readRequestBody Globals.asShipped recordingRoute [[1, 2], [3]]
        (recordingExchange (.chunks [])) []
      = (recordingExchange (.chunks []),
          [.uncaught (.ReferenceError "route"), .uncaught (.ReferenceError "route")], 0)
      ∧ readRequestBody { routeMaxLength := some 1000000, req := true } recordingRoute
          [[1, 2], [3]] (recordingExchange (.chunks [])) []
        = (recordingExchange (.chunks []), [.accumulate [1, 2], .accumulate [3]], 3)
      ∧ (endListener recordingRoute (recordingExchange (.chunks [])) []).exchange.user
        = [.chunks [], .chunks []]
      ∧ (endListener recordingRoute (recordingExchange (.chunks [])) []).exchange.user
        ≠ [.buffer [1, 2, 3], .buffer [1, 2, 3]] :=
  ⟨rfl, rfl, rfl, by decide⟩

/-- C19: the code at the failing input.  A data handler that throws is called
from the `end` listener, after the route callback and its `try` block have
ended: the exception leaves the listener, the error is not stored on the answer
and the `__error` handler is not called.  A pre-handler that throws is caught:
the error and the context are stored and `__error` is called once. -/
theorem endListener_throw_not_caught :
    routeCallback appHandlers
        (stagedRoute [] [throwingHandler "readJson" (some "requestData")]) arrayBodyExchange
        = .next arrayBodyExchange [.onError, .onData, .onEnd]
      ∧ endListener (stagedRoute [] [throwingHandler "readJson" (some "requestData")])
          arrayBodyExchange [.onError, .onData, .onEnd]
        = .thrown (.Thrown "boom") arrayBodyExchange
            [.onError, .onData, .onEnd, .reqDataHandler 0]
      ∧ arrayBodyExchange.error = none
      ∧ routeCallback appHandlers
          (stagedRoute [throwingHandler "auth" (some "request")] []) arrayBodyExchange
        = .next { arrayBodyExchange with
                  error := some (.Thrown "boom"),
                  context := some { app := defaultOptions, route := bareRoute } }
            [.onError, .reqHandler 0, .errorHandler] :=
  ⟨rfl, rfl, rfl, rfl⟩

/-- C20: the code at the failing input, which is every error event.  The `error`
listener stores the error on the answer and then throws the TypeError of
reading `get` of the undefined `THIS.handlersrs`; the `__error` handler is not
called, although it is registered. -/
theorem errorListener_fails (err : JSError) (ex : Exchange Unit) (trace : List Event) :
    (appHandlers "__error").isSome = true
      ∧ errorListener err ex trace = .thrown (.TypeError "get") { ex with error := some err } trace
      ∧ Event.errorHandler ∉ (errorListener err ex trace).ended.drop trace.length := by
  refine ⟨rfl, rfl, ?_⟩
  simp [errorListener, Flow.ended]

/-- C21: the code at the failing input.  When `ans.data` has a function-valued
`pipe`, the default send evaluates `ans.data.pipe(nativeResponse)`, and
`nativeResponse` is not bound in `atEnd`: a ReferenceError is thrown, the data
is not piped and `ans.end` is not called.  A string is sent by `ans.end` as the
claim says. -/
theorem defaultSend_stream_not_piped {υ : Type} (ex : Exchange υ) (trace : List Event)
    (id : Nat) (s : String) :
    defaultSend { ex with data := .stream id } trace
        = .thrown (.ReferenceError "nativeResponse") { ex with data := .stream id } trace
      ∧ atEnd RouteHandlers.empty { ex with data := .stream id, answered := false } trace
        = .thrown (.ReferenceError "nativeResponse")
            { ex with data := .stream id, answered := false } trace
      ∧ atEnd RouteHandlers.empty { ex with data := .string s, answered := false } trace
        = .next { ex with data := .string s, answered := false }
            (trace ++ [.end_ (.string s)]) :=
  ⟨rfl, rfl, rfl⟩

/-- C22: the code at the failing input.  On a started instance
`checkIfNotStarted` throws the ApplicationSetupError, and so do `addToStore`
and `after`, which call it first; `addHandler` does not call it and adds the
handler to the container. -/
theorem addHandler_on_started_instance :
    startedInstance.state = "started"
      ∧ checkIfNotStarted startedInstance = .error (.ApplicationSetupError
          "You need to complete the setup before starting the server.")
      ∧ addToStore asSetupError startedInstance "db" (.primitive true 1) false
        = .error (.ApplicationSetupError
            "You need to complete the setup before starting the server.")
      ∧ after startedInstance "error" (some 7) = .error (.ApplicationSetupError
          "You need to complete the setup before starting the server.")
      ∧ addHandler startedInstance "late" 9
        = .ok { startedInstance with handlers := [("late", 9)] }
      ∧ startedInstance.handlers = [] :=
  ⟨rfl, rfl, rfl, rfl, rfl, rfl⟩

/-- C23: the code at the failing input.  The guard of `addToStore` tests the
truthiness of `_store[name]`, not whether the name exists in the store.  The
name `flag` exists in the store with the falsy resource 0, and a safe
`addToStore("flag", ...)` succeeds and overwrites it.  The name `toString` does
not exist in the store, and a safe `addToStore("toString", ...)` throws; so does
a safe `addToStore("db2", ...)` once `addToStore("__proto__", ...)` has replaced
the prototype of the store by an object with the property `db2`.  A safe
`addToStore("db", ...)` on the stored object `db` throws, as the claim says; the
value thrown is in each case the result of `ApplicationSetupError(...)` called
without `new`. -/
theorem addToStore_safe_overwrites (withoutNew : String → JSError) :
    storedInstance.state ≠ "started"
      ∧ storedInstance.store.own "flag" = some (.primitive false 0)
      ∧ (∃ inst1, addToStore withoutNew storedInstance "flag" (.primitive true 7) true
            = .ok inst1
          ∧ inst1.store.own "flag" = some (.primitive true 7))
      ∧ storedInstance.store.own "toString" = none
      ∧ addToStore withoutNew storedInstance "toString" (.primitive true 7) true
        = .error (withoutNew "You\x27re trying to overwrite a resource toString")
      ∧ (∃ inst1, addToStore withoutNew storedInstance "__proto__"
              (.object 8 [{ name := "db2", truthy := true, writable := true }] true) false
            = .ok inst1
          ∧ inst1.store.own "db2" = none
          ∧ addToStore withoutNew inst1 "db2" (.primitive true 9) true
            = .error (withoutNew "You\x27re trying to overwrite a resource db2"))
      ∧ addToStore withoutNew storedInstance "db" (.primitive true 7) true
        = .error (withoutNew "You\x27re trying to overwrite a resource db") :=
  ⟨by decide, rfl, ⟨_, rfl, rfl⟩, rfl, rfl, ⟨_, rfl, rfl, rfl⟩, rfl⟩

/-- C24 (amended): for every handler, list of before-hooks and list of
after-hooks, the calls of `run` on the runner built from them are an initial
part of the sequence "every before-hook in array order with the handler name,
the handler once, every after-hook in array order with the handler name" (for a
handler marked `inParallel`: the handler alone); they are the whole sequence
when `run` returns, and they end with the first call that throws. -/
theorem run_calls {υ : Type} (name : String) (handler : Handler υ)
    (before after : Option (List (Hook υ))) (ex : Exchange υ) :
    (∃ rest, ((Runner.create name handler before after).run ex).2 ++ rest
          = fullSequence name handler before after
        ∧ ((∃ ex1, ((Runner.create name handler before after).run ex).1 = .ok ex1) →
            rest = []))
      ∧ (handler.inParallel = true →
          fullSequence name handler before after = [RunnerCall.handler]) := by
  constructor
  · obtain ⟨kb, hkb, hcb, hallb⟩ := runBefore_calls name handler before after ex []
    unfold Runner.run fullSequence
    cases hrb : (Runner.create name handler before after).runBefore ex [] with
    | mk rb cb =>
      rw [hrb] at hcb hallb
      simp only [List.nil_append] at hcb
      cases rb with
      | throw e ex1 =>
        simp only []
        refine ⟨(List.range' kb (hookCount handler before - kb)).map
            (fun i => RunnerCall.before i name) ++ [RunnerCall.handler]
            ++ (List.range (hookCount handler after)).map (fun i => RunnerCall.after i name),
          ?_, ?_⟩
        · rw [hcb, range_map_split _ kb _ hkb]
          simp
        · rintro ⟨ex2, h2⟩
          cases h2
      | ok ex1 =>
        have hk : kb = hookCount handler before := hallb ⟨ex1, rfl⟩
        subst hk
        have hcb1 : cb = (List.range (hookCount handler before)).map
            (fun i => RunnerCall.before i name) := by
          rw [hcb, List.range_eq_range']
        simp only []
        have hh : (Runner.create name handler before after).handler = handler := rfl
        rw [hh]
        cases hc : handler.handle .noContext ex1 with
        | throw e ex2 =>
          simp only []
          refine ⟨(List.range (hookCount handler after)).map
              (fun i => RunnerCall.after i name), by rw [hcb1], ?_⟩
          rintro ⟨ex3, h3⟩
          cases h3
        | ok ex2 =>
          simp only []
          obtain ⟨ka, hka, hca, halla⟩ :=
            runAfter_calls name handler before after ex2 (cb ++ [RunnerCall.handler])
          refine ⟨(List.range' ka (hookCount handler after - ka)).map
              (fun i => RunnerCall.after i name), ?_, ?_⟩
          · rw [hca, hcb1, range_map_split (fun i => RunnerCall.after i name) ka _ hka]
            simp
          · intro hok
            rw [halla hok]
            simp
  · intro hp
    simp [fullSequence, hookCount, hp]

/-- Witness of C24: the handler `auth` with one before-hook and two after-hooks,
all of which return, and the same for a handler marked `inParallel`. -/
theorem run_calls_witness :
    ((Runner.create "auth" (testHandler "auth" (some "request")) (some [passHook])
        (some [passHook, passHook])).run freshExchange).2
      = [.before 0 "auth", .handler, .after 0 "auth", .after 1 "auth"]
      ∧ ((Runner.create "auth" { testHandler "auth" (some "request") with inParallel := true }
          (some [passHook]) (some [passHook, passHook])).run freshExchange).2
        = [.handler]
      ∧ ∃ rest, ((Runner.create "auth" (testHandler "auth" (some "request")) (some [passHook])
            (some [passHook, passHook])).run freshExchange).2 ++ rest
          = fullSequence "auth" (testHandler "auth" (some "request")) (some [passHook])
              (some [passHook, passHook])
        ∧ ((∃ ex1, ((Runner.create "auth" (testHandler "auth" (some "request"))
              (some [passHook]) (some [passHook, passHook])).run freshExchange).1 = .ok ex1) →
            rest = []) :=
  ⟨rfl, rfl,
   (run_calls "auth" (testHandler "auth" (some "request")) (some [passHook])
      (some [passHook, passHook]) freshExchange).1⟩

/-- Counterexample to C24 as stated: a handler that throws ends the run.  With
one before-hook and one after-hook around the throwing handler `auth`, the
before-hook and the handler are called and the after-hook is not. -/
theorem run_calls_counterexample :
    (throwingHandler "auth" (some "request")).inParallel = false
      ∧ ((Runner.create "auth" (throwingHandler "auth" (some "request")) (some [passHook])
          (some [passHook])).run freshExchange).2
        = [.before 0 "auth", .handler]
      ∧ fullSequence "auth" (throwingHandler "auth" (some "request")) (some [passHook])
          (some [passHook])
        = [.before 0 "auth", .handler, .after 0 "auth"] :=
  ⟨rfl, rfl, rfl⟩

/-- C25 (amended): `addRoute` goes on with a mapping exactly when it has no `in`
filter or its `in` list contains the current environment.  A mapping that is
filtered out is skipped entirely: the router is left as it was and no error is
raised, whatever the mapping names.  A mapping that is not filtered out is
compiled first.  When it does not compile, `addRoute` fails with the error of
the compilation and the router is left as it was.  When it compiles and the
overflow handler is registered, it is passed to `router.on` with its effective
method, its path and its handlers, and the outcome of `addRoute` is the outcome
of that call: the route is registered when the router accepts it. -/
theorem addRoute_environment_filter {ρ υ : Type} (routerOn : RouterOn ρ υ)
    (profile : Option String) (app : AppContext) (handlers : Registry υ) (router : ρ)
    (route : Route) :
    (skipped profile route = false
        ↔ (route.in_ = none
            ∨ ∃ envs env, route.in_ = some envs ∧ profile = some env ∧ env ∈ envs))
      ∧ (skipped profile route = true →
          addRoute routerOn profile app handlers router route = (router, none))
      ∧ (skipped profile route = false →
          ∀ e, extractHandlersFromRoute app handlers route = .error e →
            addRoute routerOn profile app handlers router route = (router, some e))
      ∧ (skipped profile route = false →
          ∀ rh fatBody, extractHandlersFromRoute app handlers route = .ok rh →
            handlers "__exceedContentLength" = some fatBody →
            ∃ entry, addRoute routerOn profile app handlers router route
                = routerOn router entry
              ∧ entry.routeHandlers = rh ∧ entry.uri = route.uri
              ∧ entry.method = whenOrDefault route) := by
  refine ⟨?_, addRoute_skipped routerOn profile app handlers router route, ?_, ?_⟩
  · unfold skipped
    cases hin : route.in_ with
    | none => simp
    | some envs =>
      cases hp : profile with
      | none => simp
      | some env => simp
  · intro hskip e herr
    exact addRoute_compile_error routerOn profile app handlers router route e hskip herr
  · intro hskip rh fatBody hok hfat
    exact ⟨_, addRoute_registers routerOn profile app handlers router route rh fatBody hskip
      hok hfat, rfl, rfl, rfl⟩

/-- Witness of C25: under the environment `test`, the mapping for `dev` that
names an unregistered handler is skipped without an error; the mapping for
`test` with the handler `auth` is passed to `router.on`, and it is registered by
a router that accepts it and not registered by a router that refuses it. -/
theorem addRoute_environment_filter_witness :
    addRoute recordingOn (some "test") defaultOptions appHandlers []
        { bareRoute with in_ := some ["dev"], after := some ["unknown"] } = ([], none)
      ∧ (∃ entry, addRoute recordingOn (some "test") defaultOptions appHandlers []
            { bareRoute with in_ := some ["dev", "test"], after := some ["auth"] }
          = recordingOn [] entry
        ∧ entry.routeHandlers
          = { RouteHandlers.empty with reqHandlers := [testHandler "auth" (some "request")] }
        ∧ entry.uri = "/" ∧ entry.method = "GET")
      ∧ (∃ entry, addRoute refusingOn (some "test") defaultOptions appHandlers []
            { bareRoute with in_ := some ["dev", "test"], after := some ["auth"] }
          = refusingOn [] entry
        ∧ entry.routeHandlers
          = { RouteHandlers.empty with reqHandlers := [testHandler "auth" (some "request")] }
        ∧ entry.uri = "/" ∧ entry.method = "GET") :=
  ⟨(addRoute_environment_filter recordingOn (some "test") defaultOptions appHandlers []
      { bareRoute with in_ := some ["dev"], after := some ["unknown"] }).2.1 rfl,
   (addRoute_environment_filter recordingOn (some "test") defaultOptions appHandlers []
      { bareRoute with in_ := some ["dev", "test"], after := some ["auth"] }).2.2.2 rfl
      { RouteHandlers.empty with reqHandlers := [testHandler "auth" (some "request")] }
      (testHandler "__exceedContentLength" none) rfl rfl,
   (addRoute_environment_filter refusingOn (some "test") defaultOptions appHandlers []
      { bareRoute with in_ := some ["dev", "test"], after := some ["auth"] }).2.2.2 rfl
      { RouteHandlers.empty with reqHandlers := [testHandler "auth" (some "request")] }
      (testHandler "__exceedContentLength" none) rfl rfl⟩

/-- Counterexample to C25 as stated: a mapping without `in` filter that names
the unregistered handler `unknown` is not registered, although the router
accepts every registration; `addRoute` fails with the setup error of the
compilation and the router stays empty. -/
theorem addRoute_environment_filter_counterexample :
    ({ bareRoute with after := some ["unknown"] } : Route).in_ = none
      ∧ addRoute recordingOn (some "test") defaultOptions appHandlers []
          { bareRoute with after := some ["unknown"] }
        = ([], some (.ApplicationSetupError "Unregistered handler unknown")) :=
  ⟨rfl, rfl⟩

/-- C26 (amended): for every mapping that `addRoute` registers, the effective
method is the mapping's `when` if it was supplied and is not empty, and "GET"
otherwise; the effective body cap is the mapping's `maxLength` if it was
supplied and is not 0, and 1,000,000 otherwise. -/
theorem addRoute_defaults {υ : Type} (profile : Option String) (app : AppContext)
    (handlers : Registry υ) (route : Route) (entry : Registered υ)
    (hadd : ∀ (ρ : Type) (routerOn : RouterOn ρ υ) (router : ρ),
      addRoute routerOn profile app handlers router route = routerOn router entry) :
    (∀ m, route.when = some m → m ≠ "" → entry.method = m)
      ∧ ((route.when = none ∨ route.when = some "") → entry.method = "GET")
      ∧ (∀ n, route.maxLength = some n → n ≠ 0 → entry.context.route.maxLength = some n)
      ∧ ((route.maxLength = none ∨ route.maxLength = some 0) →
          entry.context.route.maxLength = some 1000000)
      ∧ entry.context.route.when = some entry.method := by
  obtain ⟨hmethod, hroute⟩ := addRoute_entry hadd
  rw [hmethod, hroute]
  refine ⟨?_, ?_, ?_, ?_, rfl⟩
  · intro m hm hne
    simp [whenOrDefault, hm, hne]
  · rintro (hm | hm) <;> simp [whenOrDefault, hm]
  · intro n hn hne
    simp [withDefaults, maxLengthOrDefault, hn, hne]
  · rintro (hn | hn) <;> simp [withDefaults, maxLengthOrDefault, hn]

/-- Witness of C26: the mapping `{when: "POST", maxLength: 2048, after: [auth]}`
is registered with the method POST and the cap 2048. -/
theorem addRoute_defaults_witness :
    addRoute recordingOn none defaultOptions appHandlers [] postRoute
        = ([registeredPostRoute], none)
      ∧ registeredPostRoute.method = "POST"
      ∧ registeredPostRoute.context.route.maxLength = some 2048
      ∧ registeredPostRoute.context.route.when = some registeredPostRoute.method :=
  ⟨rfl,
   (addRoute_defaults none defaultOptions appHandlers postRoute registeredPostRoute
      (fun _ _ _ => rfl)).1 "POST" rfl (by decide),
   (addRoute_defaults none defaultOptions appHandlers postRoute registeredPostRoute
      (fun _ _ _ => rfl)).2.2.1 2048 rfl (by decide),
   (addRoute_defaults none defaultOptions appHandlers postRoute registeredPostRoute
      (fun _ _ _ => rfl)).2.2.2.2⟩

/-- Counterexample to C26 as stated: the supplied cap 0 and the supplied method
"" are falsy and are replaced by the defaults.  The mapping `{when: "",
maxLength: 0}` is registered with the method GET and the cap 1,000,000. -/
theorem addRoute_defaults_counterexample :
    ∃ entry, addRoute recordingOn none defaultOptions appHandlers []
          { bareRoute with when := some "", maxLength := some 0 } = ([entry], none)
      ∧ entry.method = "GET"
      ∧ entry.context.route.maxLength = some 1000000
      ∧ entry.context.route.maxLength ≠ some 0 :=
  ⟨_, rfl, rfl, rfl, by decide⟩

/-- C27: the code at the failing input.  The doc comment of `after` lists
`addRoute` as a supported event, but `after` has no branch for it: the name is
passed on to `_addAfterHandlers`, which throws an `Error` for it, in every
spelling.  The other listed names register a listener, aliases on the same
internal event. -/
theorem after_addRoute_throws :
    newInstance.state ≠ "started"
      ∧ after newInstance "addRoute" (some 1)
        = .error (.Error "You\x27ve provided an invalid event name: addroute")
      ∧ after newInstance "add-route" (some 1)
        = .error (.Error "You\x27ve provided an invalid event name: addroute")
      ∧ after newInstance "ADDROUTE" (some 1)
        = .error (.Error "You\x27ve provided an invalid event name: addroute")
      ∧ after newInstance "serverStart" (some 1)
        = .ok { newInstance with listeners := [("afterServerStart", 1)] }
      ∧ after newInstance "start" (some 1)
        = .ok { newInstance with listeners := [("afterServerStart", 1)] }
      ∧ after newInstance "fat-body" (some 1)
        = .ok { newInstance with listeners := [("fat-body-notify", 1)] } :=
  ⟨by decide, rfl, rfl, rfl, rfl, rfl, rfl⟩

/-- C28: for every request and answer, the default error handler calls
`answer.status(500, "Internal Server Error")` and then
`answer.close("Internal Server Error")`, and nothing else on the response; the
calls are the same whatever `answer.error` is, and the error only goes to the
logger. -/
theorem exceptionHandler_generic_500 {υ : Type} (ex : Exchange υ) :
    (exceptionHandler.handle ex).filter FacadeCall.onResponse
        = [.status 500 "Internal Server Error", .close "Internal Server Error"]
      ∧ (∀ error : Option JSError,
          (exceptionHandler.handle { ex with error := error }).filter FacadeCall.onResponse
            = (exceptionHandler.handle ex).filter FacadeCall.onResponse)
      ∧ exceptionHandler.handle ex
        = [.status 500 "Internal Server Error", .close "Internal Server Error",
           .logError ex.error] :=
  ⟨rfl, fun _ => rfl, rfl⟩

/-- C29: for every mapping on which `extractHandlersFromRoute` fails, `addRoute`
registers nothing.  On a mapping that is not skipped it fails with the error of
the compilation, and on a skipped mapping it returns; in both cases the router
after the call is the router from before the call, whatever `router.on` would
have done to it, and the outcome is the same for every `router.on`: the
validation is over before `router.on` is reached. -/
theorem addRoute_atomic {ρ υ : Type} (routerOn : RouterOn ρ υ) (profile : Option String)
    (app : AppContext) (handlers : Registry υ) (router : ρ) (route : Route) (e : JSError)
    (herr : extractHandlersFromRoute app handlers route = .error e) :
    (skipped profile route = false →
        addRoute routerOn profile app handlers router route = (router, some e))
      ∧ (skipped profile route = true →
          addRoute routerOn profile app handlers router route = (router, none))
      ∧ (addRoute routerOn profile app handlers router route).1 = router
      ∧ (∀ other : RouterOn ρ υ,
          addRoute other profile app handlers router route
            = addRoute routerOn profile app handlers router route) := by
  have h1 := fun (call : RouterOn ρ υ) =>
    addRoute_compile_error call profile app handlers router route e
  have h2 := fun (call : RouterOn ρ υ) =>
    addRoute_skipped call profile app handlers router route
  refine ⟨fun hs => h1 routerOn hs herr, h2 routerOn, ?_, ?_⟩
  · cases hs : skipped profile route with
    | true => rw [h2 routerOn hs]
    | false => rw [h1 routerOn hs herr]
  · intro other
    cases hs : skipped profile route with
    | true => rw [h2 routerOn hs, h2 other hs]
    | false => rw [h1 routerOn hs herr, h1 other hs herr]

/-- Witness of C29: the mapping `{after: [auth, unknown]}`, added to a router
that already holds the route `registeredDataRoute` and that would accept the
new one: the router still holds that one route. -/
theorem addRoute_atomic_witness :
    addRoute recordingOn none defaultOptions appHandlers [registeredDataRoute]
        { bareRoute with after := some ["auth", "unknown"] }
      = ([registeredDataRoute], some (.ApplicationSetupError "Unregistered handler unknown"))
      ∧ (addRoute recordingOn none defaultOptions appHandlers [registeredDataRoute]
          { bareRoute with after := some ["auth", "unknown"] }).1 = [registeredDataRoute]
      ∧ addRoute refusingOn none defaultOptions appHandlers [registeredDataRoute]
          { bareRoute with after := some ["auth", "unknown"] }
        = addRoute recordingOn none defaultOptions appHandlers [registeredDataRoute]
          { bareRoute with after := some ["auth", "unknown"] } :=
  ⟨(addRoute_atomic recordingOn none defaultOptions appHandlers [registeredDataRoute]
      { bareRoute with after := some ["auth", "unknown"] }
      (.ApplicationSetupError "Unregistered handler unknown") rfl).1 rfl,
   (addRoute_atomic recordingOn none defaultOptions appHandlers [registeredDataRoute]
      { bareRoute with after := some ["auth", "unknown"] }
      (.ApplicationSetupError "Unregistered handler unknown") rfl).2.2.1,
   (addRoute_atomic recordingOn none defaultOptions appHandlers [registeredDataRoute]
      { bareRoute with after := some ["auth", "unknown"] }
      (.ApplicationSetupError "Unregistered handler unknown") rfl).2.2.2 refusingOn⟩

end Muneem
